import Mathlib

/-!
Shallow embedding of the DBSCAN implementation in muster's `src/density.h`
(class `cluster::density`), together with theorems settling the specified
properties of `dbscan`, `expand_cluster` and `epsilon_range_query`.

Conventions of the embedding:
* C++ `double` distances are modelled as rationals (`ℚ`); the algorithm only
  compares them with `<` against `epsilon_`.
* `std::vector<object_id> cluster_ids` / `medoid_ids` (inherited from the
  `partition` base class) become `List Nat`, with `List.set` for element
  assignment and `List.getD _ 0` for reads (all reads and writes performed by
  the algorithm are in bounds).
* The `std::list<size_t>` worklist in `expand_cluster`, iterated with an
  iterator that survives `push_back`, becomes an explicit FIFO queue: popping
  the front and appending newly discovered seeds at the back.  The worklist
  loop is given explicit fuel `cluster_ids.length + objects.length + 1`; a
  lemma shows this fuel is never exhausted in actual runs (every index is
  enqueued at most once because enqueued points are immediately labeled).
* The `boost::mt19937 random_` member and its `rng_` adaptor are opaque state
  the algorithm never touches; they are modelled as `Nat` fields.
-/

namespace cluster

/-- Special id for unclassified points (`density::UNCLASSIFIED`). -/
def UNCLASSIFIED : Nat := 0

/-- Special id for noise (`density::NOISE`). -/
def NOISE : Nat := 1

/-- Id of the first real cluster (`density::FIRST_CLUSTER`). -/
def FIRST_CLUSTER : Nat := 2

/-- State of a `cluster::density` object: the `cluster_ids` and `medoid_ids`
vectors inherited from the `partition` base class, the two random-number
members (modelled opaquely, the algorithm never reads them), and the four
scalar members of `density`. -/
@[ext]
structure density : Type where
  cluster_ids : List Nat
  medoid_ids : List Nat
  random_ : Nat
  rng_ : Nat
  epsilon_ : ℚ
  min_points_ : Nat
  current_cluster_id_ : Nat
  total_clusters_ : Nat
deriving Repr, DecidableEq

/-- Modelled from the spec: the freshly constructed clusterer state.  The
constructor body lives in `density.cpp` / `partition.h`, which are not part of
the given sources; per the spec, `current_cluster_id_` "starts at
`FIRST_CLUSTER` = 2", `total_clusters_` starts at 0, and the assignment array
and medoid list are created by the run itself (the default-constructed
instance has `num_objects = 0`, so both vectors start empty).  `r` seeds the
(never consumed) random members. -/
def density.fresh (r : Nat) : density :=
  { cluster_ids := []
    medoid_ids := []
    random_ := r
    rng_ := r
    epsilon_ := 0
    min_points_ := 0
    current_cluster_id_ := FIRST_CLUSTER
    total_clusters_ := 0 }

/-- `density::epsilon_range_query` (density.h lines 180-197): scan indices
`0..objects.size()-1` in order; index `i` is pushed when it equals
`current_object` (without evaluating the metric) or when
`dmetric(objects[current_object], objects[i]) < epsilon_`. -/
def epsilon_range_query {T : Type} [Inhabited T] (s : density) (objects : List T)
    (dmetric : T → T → ℚ) (current_object : Nat) : List Nat :=
  (List.range objects.length).filter (fun i =>
    i == current_object ||
      decide (dmetric (objects.getD current_object default) (objects.getD i default) < s.epsilon_))

/-- One iteration of the inner loop of `expand_cluster` (density.h lines
159-172) over a neighbour `q`: if `cluster_ids[q]` is `UNCLASSIFIED` or
`NOISE`, set it to the current cluster id, and additionally record `q` as a
new worklist seed when it was `UNCLASSIFIED`.  The accumulator carries the
assignment array and the seeds pushed so far (in push order). -/
def expand_step (cid : Nat) (acc : List Nat × List Nat) (q : Nat) : List Nat × List Nat :=
  if acc.1.getD q 0 = UNCLASSIFIED ∨ acc.1.getD q 0 = NOISE then
    (acc.1.set q cid,
      if acc.1.getD q 0 = UNCLASSIFIED then acc.2 ++ [q] else acc.2)
  else acc

/-- The whole inner loop of `expand_cluster` for one worklist point: fold
`expand_step` over its epsilon-neighbourhood.  Returns the updated assignment
array and the list of seeds appended to the worklist. -/
def process_neighbourhood (cid : Nat) (nbhd : List Nat) (ids : List Nat) :
    List Nat × List Nat :=
  nbhd.foldl (expand_step cid) (ids, [])

/-- The worklist loop of `expand_cluster` (density.h lines 147-175).  The
`std::list` iterated with an iterator surviving `push_back` is a FIFO queue:
pop the front point `p`, compute its epsilon-neighbourhood, and when that
neighbourhood has at least `min_points_` members run the inner loop, appending
the newly discovered seeds at the back.  `fuel` bounds the number of pops; it
is chosen large enough that real runs always drain the queue. -/
def expand_loop {T : Type} [Inhabited T] (s : density) (objects : List T)
    (dmetric : T → T → ℚ) : Nat → List Nat → List Nat → List Nat
  | 0, _, ids => ids
  | _ + 1, [], ids => ids
  | fuel + 1, p :: rest, ids =>
    let nbhd := epsilon_range_query s objects dmetric p
    if s.min_points_ ≤ nbhd.length then
      let r := process_neighbourhood s.current_cluster_id_ nbhd ids
      expand_loop s objects dmetric fuel (rest ++ r.2) r.1
    else
      expand_loop s objects dmetric fuel rest ids

/-- `density::expand_cluster` (density.h lines 123-178).  Compute the seed
list; if it is smaller than `min_points_`, mark the seed point `NOISE` and
return `false`.  Otherwise label the whole seed list with the current cluster
id (unconditionally, density.h lines 133-144), remove `current_object` from
it, run the worklist loop, and return `true`. -/
def expand_cluster {T : Type} [Inhabited T] (s : density) (objects : List T)
    (dmetric : T → T → ℚ) (current_object : Nat) : Bool × density :=
  let seed_list := epsilon_range_query s objects dmetric current_object
  if seed_list.length < s.min_points_ then
    (false, { s with cluster_ids := s.cluster_ids.set current_object NOISE })
  else
    let ids1 := seed_list.foldl (fun ids j => ids.set j s.current_cluster_id_) s.cluster_ids
    let wl0 := seed_list.filter (fun j => !(j == current_object))
    let fuel := s.cluster_ids.length + objects.length + 1
    (true, { s with cluster_ids := expand_loop s objects dmetric fuel wl0 ids1 })

/-- One iteration of the top-level scan of `density::dbscan` (density.h lines
97-105): skip `i` unless `cluster_ids[i] == UNCLASSIFIED`; otherwise run
`expand_cluster` and, on success, append `i` to the medoid list and bump the
two counters. -/
def dbscan_step {T : Type} [Inhabited T] (objects : List T) (dmetric : T → T → ℚ)
    (s : density) (i : Nat) : density :=
  if s.cluster_ids.getD i 0 = UNCLASSIFIED then
    let r := expand_cluster s objects dmetric i
    if r.1 then
      { r.2 with
        medoid_ids := r.2.medoid_ids ++ [i]
        current_cluster_id_ := r.2.current_cluster_id_ + 1
        total_clusters_ := r.2.total_clusters_ + 1 }
    else r.2
  else s

/-- The initialization part of `density::dbscan` (density.h lines 90-95):
store `epsilon` and `min_points`, then push one `UNCLASSIFIED` entry per
object onto `cluster_ids` (an append, not a reset). -/
def dbscan_init {T : Type} (s : density) (objects : List T) (epsilon : ℚ)
    (min_points : Nat) : density :=
  { s with
    epsilon_ := epsilon
    min_points_ := min_points
    cluster_ids := s.cluster_ids ++ List.replicate objects.length UNCLASSIFIED }

/-- `density::dbscan` (density.h lines 88-106): initialization followed by the
index-ascending scan. -/
def dbscan {T : Type} [Inhabited T] (s : density) (objects : List T)
    (dmetric : T → T → ℚ) (epsilon : ℚ) (min_points : Nat) : density :=
  (List.range objects.length).foldl (dbscan_step objects dmetric)
    (dbscan_init s objects epsilon min_points)

/-- The discovery trace of a `dbscan` scan: for each index at which
`expand_cluster` succeeds, the pair (seed index, cluster id it was expanded
with).  This is the run of density.h lines 97-105 with the successful
expansions recorded; it performs exactly the state updates of `dbscan_step`. -/
def dbscan_trace {T : Type} [Inhabited T] (objects : List T) (dmetric : T → T → ℚ) :
    density → List Nat → List (Nat × Nat)
  | _, [] => []
  | s, i :: rest =>
    if s.cluster_ids.getD i 0 = UNCLASSIFIED then
      let r := expand_cluster s objects dmetric i
      if r.1 then
        (i, s.current_cluster_id_) ::
          dbscan_trace objects dmetric
            { r.2 with
              medoid_ids := r.2.medoid_ids ++ [i]
              current_cluster_id_ := r.2.current_cluster_id_ + 1
              total_clusters_ := r.2.total_clusters_ + 1 } rest
      else dbscan_trace objects dmetric r.2 rest
    else dbscan_trace objects dmetric s rest

/-- The label-transition relation actually respected by one outer-scan
iteration of `dbscan`: an entry is unchanged, or an `UNCLASSIFIED` entry
becomes `NOISE` or a cluster id, or a `NOISE`-or-cluster entry becomes a
cluster id (in particular a cluster id can be overwritten, but only by a
cluster id). -/
def labelStep (a b : Nat) : Prop :=
  a = b ∨ (a = UNCLASSIFIED ∧ NOISE ≤ b) ∨ (NOISE ≤ a ∧ FIRST_CLUSTER ≤ b)

/-- Pointwise evolution of one assignment entry under the writes of the
worklist loop with cluster id `cid`: unchanged, or an `UNCLASSIFIED`/`NOISE`
entry overwritten with `cid`. -/
def loopRel (cid a b : Nat) : Prop :=
  a = b ∨ (a ≤ 1 ∧ b = cid)

/-- `x` is a core point: its epsilon-neighbourhood (which includes `x`
itself) has at least `min_points_` members. -/
def corePoint {T : Type} [Inhabited T] (s : density) (objects : List T)
    (dmetric : T → T → ℚ) (x : Nat) : Prop :=
  s.min_points_ ≤ (epsilon_range_query s objects dmetric x).length

/-- Number of `UNCLASSIFIED` entries of an assignment array (used as part of
the worklist-loop termination measure). -/
def count0 (ids : List Nat) : Nat := ids.count 0

/-- Invariant carried through the worklist loop of `expand_cluster`: every
core point `x` that already carries a label either still sits on the worklist
(so its neighbourhood will be processed) or every point of its neighbourhood
already carries a cluster identifier. -/
def wlInv {T : Type} [Inhabited T] (s : density) (objects : List T)
    (dmetric : T → T → ℚ) (wl ids : List Nat) : Prop :=
  ∀ x, s.min_points_ ≤ (epsilon_range_query s objects dmetric x).length →
    ids.getD x 0 ≠ 0 →
    x ∈ wl ∨ ∀ q ∈ epsilon_range_query s objects dmetric x, FIRST_CLUSTER ≤ ids.getD q 0

/-- Invariant between outer-scan iterations of `dbscan`: every labeled core
point has an entirely cluster-labeled neighbourhood. -/
def coreInv {T : Type} [Inhabited T] (s : density) (objects : List T)
    (dmetric : T → T → ℚ) (ids : List Nat) : Prop :=
  ∀ x, s.min_points_ ≤ (epsilon_range_query s objects dmetric x).length →
    ids.getD x 0 ≠ 0 →
    ∀ q ∈ epsilon_range_query s objects dmetric x, FIRST_CLUSTER ≤ ids.getD q 0

/-- Adjacency table for the two-cluster counterexample: points 0-3 are one
mutually-close group, points 4-7 another, and point 8 is close to exactly one
point of each group (3 and 4).  Symmetric by construction. -/
def exAdj (a b : Nat) : Bool :=
  (a ≤ 3 && b ≤ 3) || (4 ≤ a && a ≤ 7 && 4 ≤ b && b ≤ 7) ||
    (a == 3 && b == 8) || (a == 8 && b == 3) || (a == 4 && b == 8) || (a == 8 && b == 4)

/-- Distance table of the counterexample: 0 between adjacent points, 2
otherwise (run with `epsilon = 1`, so strictly-closer means adjacent). -/
def exDm (a b : Nat) : ℚ := if exAdj a b then 0 else 2

/-- The nine objects of the counterexample, identified by their indices. -/
def exObjs : List Nat := [0, 1, 2, 3, 4, 5, 6, 7, 8]

/-- 1-D integer objects with absolute-difference metric, for witnesses. -/
def absDm (a b : Int) : ℚ := ((a - b).natAbs : ℚ)

/-! ### Basic list helpers -/

theorem getD_set_self {l : List Nat} {i : Nat} (v : Nat) (h : i < l.length) :
    (l.set i v).getD i 0 = v := by
  simp [List.getD_eq_getElem?_getD, List.getElem?_set_self', h, Option.getD,
    List.getElem?_eq_getElem, h]

theorem getD_set_ne {l : List Nat} {i j : Nat} (v : Nat) (h : i ≠ j) :
    (l.set i v).getD j 0 = l.getD j 0 := by
  simp [List.getD_eq_getElem?_getD, List.getElem?_set_ne h]

theorem getD_of_length_le {l : List Nat} {j : Nat} (h : l.length ≤ j) :
    l.getD j 0 = 0 := by
  simp [List.getD_eq_getElem?_getD, List.getElem?_eq_none h]

/-! ### `epsilon_range_query` lemmas -/

theorem mem_epsilon_range_query {T : Type} [Inhabited T] (s : density) (objects : List T)
    (dmetric : T → T → ℚ) (current_object j : Nat) :
    j ∈ epsilon_range_query s objects dmetric current_object ↔
      j < objects.length ∧ (j = current_object ∨
        dmetric (objects.getD current_object default) (objects.getD j default) < s.epsilon_) := by
  simp [epsilon_range_query, List.mem_filter, List.mem_range, and_comm]

theorem epsilon_range_query_pairwise {T : Type} [Inhabited T] (s : density)
    (objects : List T) (dmetric : T → T → ℚ) (current_object : Nat) :
    (epsilon_range_query s objects dmetric current_object).Pairwise (· < ·) :=
  (List.pairwise_lt_range _).filter _

theorem epsilon_range_query_nodup {T : Type} [Inhabited T] (s : density)
    (objects : List T) (dmetric : T → T → ℚ) (current_object : Nat) :
    (epsilon_range_query s objects dmetric current_object).Nodup :=
  (epsilon_range_query_pairwise s objects dmetric current_object).imp Nat.ne_of_lt

theorem epsilon_range_query_mem_lt {T : Type} [Inhabited T] {s : density} {objects : List T}
    {dmetric : T → T → ℚ} {current_object j : Nat}
    (h : j ∈ epsilon_range_query s objects dmetric current_object) : j < objects.length :=
  ((mem_epsilon_range_query s objects dmetric current_object j).1 h).1

theorem epsilon_range_query_self_mem {T : Type} [Inhabited T] (s : density) (objects : List T)
    (dmetric : T → T → ℚ) {current_object : Nat} (h : current_object < objects.length) :
    current_object ∈ epsilon_range_query s objects dmetric current_object :=
  (mem_epsilon_range_query s objects dmetric current_object current_object).2 ⟨h, Or.inl rfl⟩

theorem epsilon_range_query_eps_only {T : Type} [Inhabited T] {s₁ s₂ : density}
    (objects : List T) (dmetric : T → T → ℚ) (current_object : Nat)
    (h : s₁.epsilon_ = s₂.epsilon_) :
    epsilon_range_query s₁ objects dmetric current_object =
      epsilon_range_query s₂ objects dmetric current_object := by
  simp [epsilon_range_query, h]

/-! ### The initial labeling loop: a fold of `List.set` -/

theorem foldl_set_length (l : List Nat) (ids : List Nat) (v : Nat) :
    (l.foldl (fun ids j => ids.set j v) ids).length = ids.length := by
  induction l generalizing ids with
  | nil => rfl
  | cons q tl ih => simp only [List.foldl_cons]; rw [ih]; simp

theorem foldl_set_getD (l : List Nat) (ids : List Nat) (v j : Nat) :
    (l.foldl (fun ids j => ids.set j v) ids).getD j 0 =
      if j ∈ l ∧ j < ids.length then v else ids.getD j 0 := by
  induction l generalizing ids with
  | nil => simp
  | cons q tl ih =>
    rw [List.foldl_cons, ih, List.length_set]
    by_cases hlen : j < ids.length
    · by_cases hq : j = q
      · subst hq
        by_cases htl : j ∈ tl
        · rw [if_pos ⟨htl, hlen⟩, if_pos ⟨List.mem_cons_self j tl, hlen⟩]
        · rw [if_neg (fun h => htl h.1), if_pos ⟨List.mem_cons_self j tl, hlen⟩,
            getD_set_self v hlen]
      · rw [getD_set_ne v (fun h => hq h.symm)]
        by_cases htl : j ∈ tl
        · rw [if_pos ⟨htl, hlen⟩, if_pos ⟨List.mem_cons_of_mem q htl, hlen⟩]
        · rw [if_neg (fun h => htl h.1),
            if_neg (fun h => htl ((List.mem_cons.1 h.1).resolve_left hq))]
    · have h₁ : ids.length ≤ j := Nat.le_of_not_lt hlen
      have h₂ : (ids.set q v).length ≤ j := by rw [List.length_set]; exact h₁
      rw [if_neg (fun h => hlen h.2), if_neg (fun h => hlen h.2),
        getD_of_length_le h₁, getD_of_length_le h₂]

/-! ### Inner-loop (`expand_step` fold) lemmas -/

theorem le_one_iff {a : Nat} : a ≤ 1 ↔ a = 0 ∨ a = 1 := by omega

theorem expand_step_push {cid : Nat} {ids acc : List Nat} {q : Nat}
    (h : ids.getD q 0 = 0) :
    expand_step cid (ids, acc) q = (ids.set q cid, acc ++ [q]) := by
  have h' : ids[q]?.getD 0 = 0 := by simpa using h
  simp [expand_step, UNCLASSIFIED, NOISE, h']

theorem expand_step_relabel {cid : Nat} {ids acc : List Nat} {q : Nat}
    (h : ids.getD q 0 = 1) :
    expand_step cid (ids, acc) q = (ids.set q cid, acc) := by
  have h' : ids[q]?.getD 0 = 1 := by simpa using h
  simp [expand_step, UNCLASSIFIED, NOISE, h']

theorem expand_step_skip {cid : Nat} {ids acc : List Nat} {q : Nat}
    (h : ¬ ids.getD q 0 ≤ 1) :
    expand_step cid (ids, acc) q = (ids, acc) := by
  have h0 : ¬ ids[q]?.getD 0 = 0 := by simp only [← List.getD_eq_getElem?_getD]; omega
  have h1 : ¬ ids[q]?.getD 0 = 1 := by simp only [← List.getD_eq_getElem?_getD]; omega
  simp [expand_step, UNCLASSIFIED, NOISE, h0, h1]

theorem expand_step_fst_length (cid : Nat) (acc : List Nat × List Nat) (q : Nat) :
    (expand_step cid acc q).1.length = acc.1.length := by
  unfold expand_step; split <;> simp

theorem expand_fold_fst_length (nbhd : List Nat) (cid : Nat) (acc : List Nat × List Nat) :
    ((nbhd.foldl (expand_step cid) acc).1).length = acc.1.length := by
  induction nbhd generalizing acc with
  | nil => rfl
  | cons q tl ih => rw [List.foldl_cons, ih, expand_step_fst_length]

theorem loopRel_refl (cid a : Nat) : loopRel cid a a := Or.inl rfl

theorem loopRel_trans {cid a b c : Nat} (h₁ : loopRel cid a b) (h₂ : loopRel cid b c) :
    loopRel cid a c := by
  rcases h₁ with h₁ | h₁
  · rwa [h₁]
  · rcases h₂ with h₂ | h₂
    · exact Or.inr ⟨h₁.1, h₂ ▸ h₁.2⟩
    · exact Or.inr ⟨h₁.1, h₂.2⟩

theorem expand_step_fst_rel (cid : Nat) (acc : List Nat × List Nat) (q j : Nat) :
    loopRel cid (acc.1.getD j 0) ((expand_step cid acc q).1.getD j 0) := by
  rcases Nat.lt_or_ge (acc.1.getD q 0) 2 with hlt | hge
  · have hset : (expand_step cid acc q).1 = acc.1.set q cid := by
      rcases le_one_iff.1 (Nat.lt_succ_iff.1 hlt) with h | h
      · rw [show acc = ((acc.1 : List Nat), (acc.2 : List Nat)) from rfl] at h ⊢
        rw [expand_step_push h]
      · rw [show acc = ((acc.1 : List Nat), (acc.2 : List Nat)) from rfl] at h ⊢
        rw [expand_step_relabel h]
    rw [hset]
    by_cases hq : q = j
    · subst hq
      by_cases hlen : q < acc.1.length
      · exact Or.inr ⟨Nat.lt_succ_iff.1 hlt, getD_set_self cid hlen⟩
      · rw [List.set_eq_of_length_le (Nat.le_of_not_lt hlen)]
        exact loopRel_refl cid _
    · rw [getD_set_ne cid hq]
      exact loopRel_refl cid _
  · have hskip : expand_step cid acc q = acc := by
      rw [show acc = ((acc.1 : List Nat), (acc.2 : List Nat)) from rfl]
      exact expand_step_skip (by omega)
    rw [hskip]
    exact loopRel_refl cid _

theorem expand_fold_fst_rel (nbhd : List Nat) (cid : Nat) (acc : List Nat × List Nat) (j : Nat) :
    loopRel cid (acc.1.getD j 0) (((nbhd.foldl (expand_step cid) acc).1).getD j 0) := by
  induction nbhd generalizing acc with
  | nil => exact loopRel_refl cid _
  | cons q tl ih =>
    rw [List.foldl_cons]
    exact loopRel_trans (expand_step_fst_rel cid acc q j) (ih _)

theorem expand_fold_fst_getD (nbhd : List Nat) (cid : Nat) (ids acc : List Nat) (j : Nat)
    (nd : nbhd.Nodup) (hb : ∀ q ∈ nbhd, q < ids.length) :
    ((nbhd.foldl (expand_step cid) (ids, acc)).1).getD j 0 =
      if j ∈ nbhd ∧ ids.getD j 0 ≤ 1 then cid else ids.getD j 0 := by
  induction nbhd generalizing ids acc with
  | nil => simp
  | cons q tl ih =>
    have hq_notin : q ∉ tl := (List.nodup_cons.1 nd).1
    have nd' : tl.Nodup := (List.nodup_cons.1 nd).2
    have hqlen : q < ids.length := hb q (List.mem_cons_self q tl)
    have hb' : ∀ p ∈ tl, p < (ids.set q cid).length := by
      intro p hp; rw [List.length_set]; exact hb p (List.mem_cons_of_mem q hp)
    rw [List.foldl_cons]
    rcases Nat.lt_or_ge (ids.getD q 0) 2 with hlt | hge
    · have hq1 : ids.getD q 0 ≤ 1 := Nat.lt_succ_iff.1 hlt
      have hstep : ∃ acc' : List Nat, expand_step cid (ids, acc) q = (ids.set q cid, acc') := by
        rcases le_one_iff.1 hq1 with h | h
        · exact ⟨acc ++ [q], expand_step_push h⟩
        · exact ⟨acc, expand_step_relabel h⟩
      rcases hstep with ⟨acc', hstep⟩
      rw [hstep, ih (ids.set q cid) acc' nd' hb']
      by_cases hjq : j = q
      · subst hjq
        rw [if_neg (fun h => hq_notin h.1), if_pos ⟨List.mem_cons_self j tl, hq1⟩,
          getD_set_self cid hqlen]
      · rw [getD_set_ne cid (fun h => hjq h.symm)]
        by_cases htl : j ∈ tl
        · by_cases hj1 : ids.getD j 0 ≤ 1
          · rw [if_pos ⟨htl, hj1⟩, if_pos ⟨List.mem_cons_of_mem q htl, hj1⟩]
          · rw [if_neg (fun h => hj1 h.2), if_neg (fun h => hj1 h.2)]
        · rw [if_neg (fun h => htl h.1),
            if_neg (fun h => htl ((List.mem_cons.1 h.1).resolve_left hjq))]
    · have hstep : expand_step cid (ids, acc) q = (ids, acc) :=
        expand_step_skip (by omega)
      rw [hstep, ih ids acc nd' (fun p hp => hb p (List.mem_cons_of_mem q hp))]
      by_cases hjq : j = q
      · subst hjq
        rw [if_neg (fun h => hq_notin h.1), if_neg (fun h => by omega)]
      · by_cases htl : j ∈ tl
        · by_cases hj1 : ids.getD j 0 ≤ 1
          · rw [if_pos ⟨htl, hj1⟩, if_pos ⟨List.mem_cons_of_mem q htl, hj1⟩]
          · rw [if_neg (fun h => hj1 h.2), if_neg (fun h => hj1 h.2)]
        · rw [if_neg (fun h => htl h.1),
            if_neg (fun h => htl ((List.mem_cons.1 h.1).resolve_left hjq))]

theorem expand_fold_snd (nbhd : List Nat) (cid : Nat) (ids acc : List Nat)
    (nd : nbhd.Nodup) :
    (nbhd.foldl (expand_step cid) (ids, acc)).2 =
      acc ++ nbhd.filter (fun q => ids.getD q 0 == 0) := by
  induction nbhd generalizing ids acc with
  | nil => simp
  | cons q tl ih =>
    have hq_notin : q ∉ tl := (List.nodup_cons.1 nd).1
    have nd' : tl.Nodup := (List.nodup_cons.1 nd).2
    have hfilter : ∀ v : Nat, tl.filter (fun p => (ids.set q v).getD p 0 == 0) =
        tl.filter (fun p => ids.getD p 0 == 0) := by
      intro v
      refine List.filter_congr (fun p hp => ?_)
      rw [getD_set_ne v (fun h => hq_notin (by rw [h]; exact hp))]
    rw [List.foldl_cons]
    rcases Nat.lt_or_ge (ids.getD q 0) 2 with hlt | hge
    · rcases le_one_iff.1 (Nat.lt_succ_iff.1 hlt) with h0 | h1
      · rw [expand_step_push h0, ih (ids.set q cid) (acc ++ [q]) nd', hfilter,
          List.filter_cons_of_pos (by simp only [beq_iff_eq]; omega), List.append_assoc]
        rfl
      · rw [expand_step_relabel h1, ih (ids.set q cid) acc nd', hfilter,
          List.filter_cons_of_neg (by simp only [beq_iff_eq]; omega)]
    · rw [expand_step_skip (by omega), ih ids acc nd',
        List.filter_cons_of_neg (by simp only [beq_iff_eq]; omega)]

/-! ### Counting `UNCLASSIFIED` entries (worklist termination measure) -/

theorem count0_le_length (ids : List Nat) : count0 ids ≤ ids.length :=
  List.count_le_length 0 ids

theorem count0_set_zero {ids : List Nat} {q v : Nat} (hq : q < ids.length)
    (h0 : ids.getD q 0 = 0) (hv : v ≠ 0) :
    count0 (ids.set q v) + 1 = count0 ids := by
  induction ids generalizing q with
  | nil => simp at hq
  | cons x tl ih =>
    cases q with
    | zero =>
      have hx : x = 0 := by simpa using h0
      subst hx
      show count0 (v :: tl) + 1 = count0 (0 :: tl)
      simp only [count0, List.count_cons_of_ne (Ne.symm hv), List.count_cons_self]
    | succ q =>
      have hq' : q < tl.length := by simpa using hq
      have h0' : tl.getD q 0 = 0 := by simpa using h0
      have htl := ih hq' h0'
      show count0 (x :: tl.set q v) + 1 = count0 (x :: tl)
      by_cases hx : (0 : Nat) = x
      · subst hx
        simp only [count0, List.count_cons_self] at htl ⊢
        omega
      · simp only [count0, List.count_cons_of_ne hx] at htl ⊢
        omega

theorem count0_set_nonzero {ids : List Nat} {q v : Nat}
    (h0 : ids.getD q 0 ≠ 0) (hv : v ≠ 0) :
    count0 (ids.set q v) = count0 ids := by
  induction ids generalizing q with
  | nil => simp [List.set]
  | cons x tl ih =>
    cases q with
    | zero =>
      have hx : x ≠ 0 := by simpa using h0
      show count0 (v :: tl) = count0 (x :: tl)
      simp only [count0, List.count_cons_of_ne (Ne.symm hv), List.count_cons_of_ne (Ne.symm hx)]
    | succ q =>
      have h0' : tl.getD q 0 ≠ 0 := by simpa using h0
      have htl := ih h0'
      show count0 (x :: tl.set q v) = count0 (x :: tl)
      by_cases hx : (0 : Nat) = x
      · subst hx
        simp only [count0, List.count_cons_self] at htl ⊢
        omega
      · simp only [count0, List.count_cons_of_ne hx] at htl ⊢
        omega

theorem expand_fold_count (nbhd : List Nat) (cid : Nat) (ids acc : List Nat)
    (hcid : cid ≠ 0) (hb : ∀ q ∈ nbhd, q < ids.length) :
    count0 ((nbhd.foldl (expand_step cid) (ids, acc)).1) +
        ((nbhd.foldl (expand_step cid) (ids, acc)).2).length ≤
      count0 ids + acc.length := by
  induction nbhd generalizing ids acc with
  | nil => simp
  | cons q tl ih =>
    have hqlen : q < ids.length := hb q (List.mem_cons_self q tl)
    have hb' : ∀ p ∈ tl, p < (ids.set q cid).length := by
      intro p hp; rw [List.length_set]; exact hb p (List.mem_cons_of_mem q hp)
    rw [List.foldl_cons]
    rcases Nat.lt_or_ge (ids.getD q 0) 2 with hlt | hge
    · rcases le_one_iff.1 (Nat.lt_succ_iff.1 hlt) with h0 | h1
      · rw [expand_step_push h0]
        have hcount := count0_set_zero hqlen h0 hcid
        have := ih (ids.set q cid) (acc ++ [q]) hb'
        simp only [List.length_append, List.length_singleton] at this
        omega
      · rw [expand_step_relabel h1]
        have hne : ids.getD q 0 ≠ 0 := by omega
        have hcount := count0_set_nonzero hne hcid
        have := ih (ids.set q cid) acc hb'
        omega
    · rw [expand_step_skip (by omega)]
      exact ih ids acc (fun p hp => hb p (List.mem_cons_of_mem q hp))

/-! ### `expand_loop` equations and evolution lemmas -/

theorem expand_loop_zero {T : Type} [Inhabited T] (s : density) (objects : List T)
    (dmetric : T → T → ℚ) (wl ids : List Nat) :
    expand_loop s objects dmetric 0 wl ids = ids := rfl

theorem expand_loop_nil {T : Type} [Inhabited T] (s : density) (objects : List T)
    (dmetric : T → T → ℚ) (fuel : Nat) (ids : List Nat) :
    expand_loop s objects dmetric (fuel + 1) [] ids = ids := rfl

theorem expand_loop_cons_core {T : Type} [Inhabited T] {s : density} {objects : List T}
    {dmetric : T → T → ℚ} (fuel : Nat) (p : Nat) (rest ids : List Nat)
    (h : s.min_points_ ≤ (epsilon_range_query s objects dmetric p).length) :
    expand_loop s objects dmetric (fuel + 1) (p :: rest) ids =
      expand_loop s objects dmetric fuel
        (rest ++ (process_neighbourhood s.current_cluster_id_
          (epsilon_range_query s objects dmetric p) ids).2)
        (process_neighbourhood s.current_cluster_id_
          (epsilon_range_query s objects dmetric p) ids).1 := by
  rw [expand_loop]
  simp only [h, if_true]

theorem expand_loop_cons_noncore {T : Type} [Inhabited T] {s : density} {objects : List T}
    {dmetric : T → T → ℚ} (fuel : Nat) (p : Nat) (rest ids : List Nat)
    (h : ¬ s.min_points_ ≤ (epsilon_range_query s objects dmetric p).length) :
    expand_loop s objects dmetric (fuel + 1) (p :: rest) ids =
      expand_loop s objects dmetric fuel rest ids := by
  rw [expand_loop]
  simp only [h, if_false]

theorem expand_loop_length {T : Type} [Inhabited T] (s : density) (objects : List T)
    (dmetric : T → T → ℚ) :
    ∀ (fuel : Nat) (wl ids : List Nat),
      (expand_loop s objects dmetric fuel wl ids).length = ids.length := by
  intro fuel
  induction fuel with
  | zero => intro wl ids; rfl
  | succ fuel ih =>
    intro wl ids
    cases wl with
    | nil => rfl
    | cons p rest =>
      by_cases h : s.min_points_ ≤ (epsilon_range_query s objects dmetric p).length
      · rw [expand_loop_cons_core fuel p rest ids h, ih]
        exact expand_fold_fst_length _ _ _
      · rw [expand_loop_cons_noncore fuel p rest ids h, ih]

theorem loopRel_nonzero {cid a b : Nat} (hcid : cid ≠ 0) (h : loopRel cid a b)
    (ha : a ≠ 0) : b ≠ 0 := by
  rcases h with h | h
  · rwa [← h]
  · rw [h.2]; exact hcid

theorem loopRel_ge {cid a b : Nat} (hcid : 2 ≤ cid) (h : loopRel cid a b)
    (ha : 2 ≤ a) : 2 ≤ b := by
  rcases h with h | h
  · rwa [← h]
  · rw [h.2]; exact hcid

theorem loopRel_labelStep {cid a b : Nat} (hcid : FIRST_CLUSTER ≤ cid)
    (h : loopRel cid a b) : labelStep a b := by
  rcases h with h | h
  · exact Or.inl h
  · rcases le_one_iff.1 h.1 with h0 | h1
    · refine Or.inr (Or.inl ⟨h0, ?_⟩)
      rw [h.2]
      exact Nat.le_trans (by norm_num [NOISE, FIRST_CLUSTER]) hcid
    · refine Or.inr (Or.inr ⟨by rw [h1]; decide, by rw [h.2]; exact hcid⟩)

theorem expand_loop_rel {T : Type} [Inhabited T] (s : density) (objects : List T)
    (dmetric : T → T → ℚ) :
    ∀ (fuel : Nat) (wl ids : List Nat) (j : Nat),
      loopRel s.current_cluster_id_ (ids.getD j 0)
        ((expand_loop s objects dmetric fuel wl ids).getD j 0) := by
  intro fuel
  induction fuel with
  | zero => intro wl ids j; exact loopRel_refl _ _
  | succ fuel ih =>
    intro wl ids j
    cases wl with
    | nil => exact loopRel_refl _ _
    | cons p rest =>
      by_cases h : s.min_points_ ≤ (epsilon_range_query s objects dmetric p).length
      · rw [expand_loop_cons_core fuel p rest ids h]
        exact loopRel_trans
          (expand_fold_fst_rel (epsilon_range_query s objects dmetric p)
            s.current_cluster_id_ (ids, []) j)
          (ih _ _ j)
      · rw [expand_loop_cons_noncore fuel p rest ids h]
        exact ih rest ids j

/-! ### `expand_cluster` lemmas -/

theorem expand_cluster_noise {T : Type} [Inhabited T] {s : density} {objects : List T}
    {dmetric : T → T → ℚ} {current_object : Nat}
    (h : (epsilon_range_query s objects dmetric current_object).length < s.min_points_) :
    expand_cluster s objects dmetric current_object =
      (false, { s with cluster_ids := s.cluster_ids.set current_object NOISE }) := by
  simp only [expand_cluster]
  rw [if_pos h]

theorem expand_cluster_core_fst {T : Type} [Inhabited T] {s : density} {objects : List T}
    {dmetric : T → T → ℚ} {current_object : Nat}
    (h : ¬ (epsilon_range_query s objects dmetric current_object).length < s.min_points_) :
    (expand_cluster s objects dmetric current_object).1 = true := by
  simp only [expand_cluster]
  rw [if_neg h]

theorem expand_cluster_core_ids {T : Type} [Inhabited T] {s : density} {objects : List T}
    {dmetric : T → T → ℚ} {current_object : Nat}
    (h : ¬ (epsilon_range_query s objects dmetric current_object).length < s.min_points_) :
    (expand_cluster s objects dmetric current_object).2.cluster_ids =
      expand_loop s objects dmetric (s.cluster_ids.length + objects.length + 1)
        ((epsilon_range_query s objects dmetric current_object).filter
          (fun j => !(j == current_object)))
        ((epsilon_range_query s objects dmetric current_object).foldl
          (fun ids j => ids.set j s.current_cluster_id_) s.cluster_ids) := by
  simp only [expand_cluster]
  rw [if_neg h]

theorem expand_cluster_state {T : Type} [Inhabited T] (s : density) (objects : List T)
    (dmetric : T → T → ℚ) (current_object : Nat) :
    (expand_cluster s objects dmetric current_object).2 =
      { s with cluster_ids := (expand_cluster s objects dmetric current_object).2.cluster_ids } := by
  simp only [expand_cluster]
  split <;> rfl

theorem expand_cluster_false_iff {T : Type} [Inhabited T] (s : density) (objects : List T)
    (dmetric : T → T → ℚ) (current_object : Nat) :
    (expand_cluster s objects dmetric current_object).1 = false ↔
      (epsilon_range_query s objects dmetric current_object).length < s.min_points_ := by
  by_cases h : (epsilon_range_query s objects dmetric current_object).length < s.min_points_
  · rw [expand_cluster_noise h]
    simp [h]
  · rw [expand_cluster_core_fst h]
    simp [h]

theorem expand_cluster_length {T : Type} [Inhabited T] (s : density) (objects : List T)
    (dmetric : T → T → ℚ) (current_object : Nat) :
    (expand_cluster s objects dmetric current_object).2.cluster_ids.length =
      s.cluster_ids.length := by
  by_cases h : (epsilon_range_query s objects dmetric current_object).length < s.min_points_
  · rw [expand_cluster_noise h]
    exact List.length_set s.cluster_ids current_object NOISE
  · rw [expand_cluster_core_ids h, expand_loop_length, foldl_set_length]

theorem labelStep_refl (a : Nat) : labelStep a a := Or.inl rfl

theorem labelStep_trans {a b c : Nat} (h₁ : labelStep a b) (h₂ : labelStep b c) :
    labelStep a c := by
  simp only [labelStep, UNCLASSIFIED, NOISE, FIRST_CLUSTER] at h₁ h₂ ⊢
  omega

theorem labelStep_to_cid {cid a : Nat} (hcid : FIRST_CLUSTER ≤ cid) : labelStep a cid := by
  simp only [labelStep, UNCLASSIFIED, NOISE, FIRST_CLUSTER] at hcid ⊢
  omega

theorem expand_cluster_labelStep {T : Type} [Inhabited T] {s : density} {objects : List T}
    {dmetric : T → T → ℚ} {current_object : Nat}
    (hcid : FIRST_CLUSTER ≤ s.current_cluster_id_)
    (h0 : s.cluster_ids.getD current_object 0 = UNCLASSIFIED) (j : Nat) :
    labelStep (s.cluster_ids.getD j 0)
      ((expand_cluster s objects dmetric current_object).2.cluster_ids.getD j 0) := by
  by_cases h : (epsilon_range_query s objects dmetric current_object).length < s.min_points_
  · rw [expand_cluster_noise h]
    show labelStep _ ((s.cluster_ids.set current_object NOISE).getD j 0)
    by_cases hj : current_object = j
    · subst hj
      by_cases hlen : current_object < s.cluster_ids.length
      · rw [getD_set_self NOISE hlen, h0]
        exact Or.inr (Or.inl ⟨rfl, Nat.le_refl _⟩)
      · rw [List.set_eq_of_length_le (Nat.le_of_not_lt hlen)]
        exact labelStep_refl _
    · rw [getD_set_ne NOISE hj]
      exact labelStep_refl _
  · rw [expand_cluster_core_ids h]
    refine labelStep_trans (b := ((epsilon_range_query s objects dmetric current_object).foldl
        (fun ids j => ids.set j s.current_cluster_id_) s.cluster_ids).getD j 0) ?_ ?_
    · rw [foldl_set_getD]
      by_cases hcond : j ∈ epsilon_range_query s objects dmetric current_object ∧
          j < s.cluster_ids.length
      · rw [if_pos hcond]
        exact labelStep_to_cid hcid
      · rw [if_neg hcond]
        exact labelStep_refl _
    · exact loopRel_labelStep hcid (expand_loop_rel s objects dmetric _ _ _ j)

theorem expand_cluster_nonzero {T : Type} [Inhabited T] {s : density} {objects : List T}
    {dmetric : T → T → ℚ} {current_object : Nat}
    (hcid : s.current_cluster_id_ ≠ 0) {j : Nat} (hj : s.cluster_ids.getD j 0 ≠ 0) :
    (expand_cluster s objects dmetric current_object).2.cluster_ids.getD j 0 ≠ 0 := by
  by_cases h : (epsilon_range_query s objects dmetric current_object).length < s.min_points_
  · rw [expand_cluster_noise h]
    show (s.cluster_ids.set current_object NOISE).getD j 0 ≠ 0
    by_cases hij : current_object = j
    · subst hij
      by_cases hlen : current_object < s.cluster_ids.length
      · rw [getD_set_self NOISE hlen]
        decide
      · rwa [List.set_eq_of_length_le (Nat.le_of_not_lt hlen)]
    · rwa [getD_set_ne NOISE hij]
  · rw [expand_cluster_core_ids h]
    refine loopRel_nonzero hcid (expand_loop_rel s objects dmetric _ _ _ j) ?_
    rw [foldl_set_getD]
    by_cases hcond : j ∈ epsilon_range_query s objects dmetric current_object ∧
        j < s.cluster_ids.length
    · rw [if_pos hcond]; exact hcid
    · rwa [if_neg hcond]

theorem expand_cluster_seed_nonzero {T : Type} [Inhabited T] {s : density} {objects : List T}
    {dmetric : T → T → ℚ} {current_object : Nat}
    (hcid : s.current_cluster_id_ ≠ 0) (hin : current_object < objects.length)
    (hlen : current_object < s.cluster_ids.length) :
    (expand_cluster s objects dmetric current_object).2.cluster_ids.getD current_object 0 ≠ 0 := by
  by_cases h : (epsilon_range_query s objects dmetric current_object).length < s.min_points_
  · rw [expand_cluster_noise h]
    show (s.cluster_ids.set current_object NOISE).getD current_object 0 ≠ 0
    rw [getD_set_self NOISE hlen]
    decide
  · rw [expand_cluster_core_ids h]
    refine loopRel_nonzero hcid (expand_loop_rel s objects dmetric _ _ _ current_object) ?_
    rw [foldl_set_getD,
      if_pos ⟨epsilon_range_query_self_mem s objects dmetric hin, hlen⟩]
    exact hcid

/-! ### `dbscan_step` lemmas -/

theorem dbscan_step_of_classified {T : Type} [Inhabited T] {objects : List T}
    {dmetric : T → T → ℚ} {s : density} {i : Nat}
    (h : ¬ s.cluster_ids.getD i 0 = UNCLASSIFIED) :
    dbscan_step objects dmetric s i = s := by
  simp only [dbscan_step]
  rw [if_neg h]

theorem dbscan_step_cluster_ids {T : Type} [Inhabited T] (objects : List T)
    (dmetric : T → T → ℚ) (s : density) (i : Nat) :
    (dbscan_step objects dmetric s i).cluster_ids =
      if s.cluster_ids.getD i 0 = UNCLASSIFIED then
        (expand_cluster s objects dmetric i).2.cluster_ids
      else s.cluster_ids := by
  simp only [dbscan_step]
  split
  · split <;> rfl
  · rfl

theorem dbscan_step_length {T : Type} [Inhabited T] (objects : List T)
    (dmetric : T → T → ℚ) (s : density) (i : Nat) :
    (dbscan_step objects dmetric s i).cluster_ids.length = s.cluster_ids.length := by
  rw [dbscan_step_cluster_ids]
  split
  · exact expand_cluster_length s objects dmetric i
  · rfl

theorem dbscan_step_params {T : Type} [Inhabited T] (objects : List T)
    (dmetric : T → T → ℚ) (s : density) (i : Nat) :
    (dbscan_step objects dmetric s i).epsilon_ = s.epsilon_ ∧
      (dbscan_step objects dmetric s i).min_points_ = s.min_points_ ∧
      (dbscan_step objects dmetric s i).random_ = s.random_ ∧
      (dbscan_step objects dmetric s i).rng_ = s.rng_ := by
  simp only [dbscan_step]
  split
  · split
    · rw [expand_cluster_state]
      exact ⟨rfl, rfl, rfl, rfl⟩
    · rw [expand_cluster_state]
      exact ⟨rfl, rfl, rfl, rfl⟩
  · exact ⟨rfl, rfl, rfl, rfl⟩

theorem dbscan_step_counters {T : Type} [Inhabited T] (objects : List T)
    (dmetric : T → T → ℚ) (s : density) (i : Nat) :
    ((dbscan_step objects dmetric s i).medoid_ids = s.medoid_ids ∧
        (dbscan_step objects dmetric s i).current_cluster_id_ = s.current_cluster_id_ ∧
        (dbscan_step objects dmetric s i).total_clusters_ = s.total_clusters_) ∨
      ((dbscan_step objects dmetric s i).medoid_ids = s.medoid_ids ++ [i] ∧
        (dbscan_step objects dmetric s i).current_cluster_id_ = s.current_cluster_id_ + 1 ∧
        (dbscan_step objects dmetric s i).total_clusters_ = s.total_clusters_ + 1) := by
  simp only [dbscan_step]
  split
  · split
    · right
      rw [expand_cluster_state]
      exact ⟨rfl, rfl, rfl⟩
    · left
      rw [expand_cluster_state]
      exact ⟨rfl, rfl, rfl⟩
  · left; exact ⟨rfl, rfl, rfl⟩

theorem dbscan_step_cid_ge {T : Type} [Inhabited T] {objects : List T}
    {dmetric : T → T → ℚ} {s : density} {i : Nat}
    (h : FIRST_CLUSTER ≤ s.current_cluster_id_) :
    FIRST_CLUSTER ≤ (dbscan_step objects dmetric s i).current_cluster_id_ := by
  rcases dbscan_step_counters objects dmetric s i with hc | hc
  · rw [hc.2.1]; exact h
  · rw [hc.2.1]; exact Nat.le_succ_of_le h

theorem dbscan_step_nonzero {T : Type} [Inhabited T] {objects : List T}
    {dmetric : T → T → ℚ} {s : density} {i : Nat}
    (hcid : s.current_cluster_id_ ≠ 0) {j : Nat} (hj : s.cluster_ids.getD j 0 ≠ 0) :
    (dbscan_step objects dmetric s i).cluster_ids.getD j 0 ≠ 0 := by
  rw [dbscan_step_cluster_ids]
  split
  · exact expand_cluster_nonzero hcid hj
  · exact hj

theorem dbscan_step_self_nonzero {T : Type} [Inhabited T] {objects : List T}
    {dmetric : T → T → ℚ} {s : density} {i : Nat}
    (hcid : s.current_cluster_id_ ≠ 0) (hin : i < objects.length)
    (hlen : i < s.cluster_ids.length) :
    (dbscan_step objects dmetric s i).cluster_ids.getD i 0 ≠ 0 := by
  rw [dbscan_step_cluster_ids]
  split
  · exact expand_cluster_seed_nonzero hcid hin hlen
  · rename_i h
    exact h

theorem dbscan_step_labelStep {T : Type} [Inhabited T] {objects : List T}
    {dmetric : T → T → ℚ} {s : density} {i : Nat}
    (hcid : FIRST_CLUSTER ≤ s.current_cluster_id_) (j : Nat) :
    labelStep (s.cluster_ids.getD j 0)
      ((dbscan_step objects dmetric s i).cluster_ids.getD j 0) := by
  rw [dbscan_step_cluster_ids]
  split
  · rename_i h
    exact expand_cluster_labelStep hcid h j
  · exact labelStep_refl _

/-! ### Fold lemmas for the top-level scan -/

theorem dbscan_foldl_length {T : Type} [Inhabited T] (objects : List T)
    (dmetric : T → T → ℚ) :
    ∀ (l : List Nat) (s : density),
      (List.foldl (dbscan_step objects dmetric) s l).cluster_ids.length =
        s.cluster_ids.length := by
  intro l
  induction l with
  | nil => intro s; rfl
  | cons i tl ih =>
    intro s
    rw [List.foldl_cons, ih, dbscan_step_length]

theorem dbscan_foldl_params {T : Type} [Inhabited T] (objects : List T)
    (dmetric : T → T → ℚ) :
    ∀ (l : List Nat) (s : density),
      (List.foldl (dbscan_step objects dmetric) s l).epsilon_ = s.epsilon_ ∧
        (List.foldl (dbscan_step objects dmetric) s l).min_points_ = s.min_points_ ∧
        (List.foldl (dbscan_step objects dmetric) s l).random_ = s.random_ ∧
        (List.foldl (dbscan_step objects dmetric) s l).rng_ = s.rng_ := by
  intro l
  induction l with
  | nil => intro s; exact ⟨rfl, rfl, rfl, rfl⟩
  | cons i tl ih =>
    intro s
    rw [List.foldl_cons]
    rcases ih (dbscan_step objects dmetric s i) with ⟨h1, h2, h3, h4⟩
    rcases dbscan_step_params objects dmetric s i with ⟨g1, g2, g3, g4⟩
    exact ⟨h1.trans g1, h2.trans g2, h3.trans g3, h4.trans g4⟩

theorem dbscan_foldl_cid_ge {T : Type} [Inhabited T] (objects : List T)
    (dmetric : T → T → ℚ) :
    ∀ (l : List Nat) (s : density), FIRST_CLUSTER ≤ s.current_cluster_id_ →
      FIRST_CLUSTER ≤ (List.foldl (dbscan_step objects dmetric) s l).current_cluster_id_ := by
  intro l
  induction l with
  | nil => intro s h; exact h
  | cons i tl ih =>
    intro s h
    rw [List.foldl_cons]
    exact ih _ (dbscan_step_cid_ge h)

theorem dbscan_foldl_labelStep {T : Type} [Inhabited T] (objects : List T)
    (dmetric : T → T → ℚ) :
    ∀ (l : List Nat) (s : density), FIRST_CLUSTER ≤ s.current_cluster_id_ →
      ∀ j, labelStep (s.cluster_ids.getD j 0)
        ((List.foldl (dbscan_step objects dmetric) s l).cluster_ids.getD j 0) := by
  intro l
  induction l with
  | nil => intro s _ j; exact labelStep_refl _
  | cons i tl ih =>
    intro s h j
    rw [List.foldl_cons]
    exact labelStep_trans (dbscan_step_labelStep h j)
      (ih (dbscan_step objects dmetric s i) (dbscan_step_cid_ge h) j)

theorem dbscan_foldl_total {T : Type} [Inhabited T] (objects : List T)
    (dmetric : T → T → ℚ) :
    ∀ (l : List Nat) (s : density), FIRST_CLUSTER ≤ s.current_cluster_id_ →
      objects.length ≤ s.cluster_ids.length →
      (∀ j ∈ l, j < objects.length) →
      ∀ j, (j ∈ l ∨ s.cluster_ids.getD j 0 ≠ 0) →
        (List.foldl (dbscan_step objects dmetric) s l).cluster_ids.getD j 0 ≠ 0 := by
  intro l
  induction l with
  | nil =>
    intro s _ _ _ j hj
    exact hj.resolve_left (fun h => by simp at h)
  | cons i tl ih =>
    intro s hcid hlen hbounds j hj
    have hcid0 : s.current_cluster_id_ ≠ 0 := by
      simp only [FIRST_CLUSTER] at hcid; omega
    have hlen' : objects.length ≤ (dbscan_step objects dmetric s i).cluster_ids.length := by
      rw [dbscan_step_length]; exact hlen
    have hbounds' : ∀ p ∈ tl, p < objects.length :=
      fun p hp => hbounds p (List.mem_cons_of_mem i hp)
    rw [List.foldl_cons]
    rcases hj with hj | hj
    · rcases List.mem_cons.1 hj with rfl | hj'
      · refine ih _ (dbscan_step_cid_ge hcid) hlen' hbounds' j (Or.inr ?_)
        exact dbscan_step_self_nonzero hcid0 (hbounds j hj)
          (Nat.lt_of_lt_of_le (hbounds j hj) hlen)
      · exact ih _ (dbscan_step_cid_ge hcid) hlen' hbounds' j (Or.inl hj')
    · refine ih _ (dbscan_step_cid_ge hcid) hlen' hbounds' j (Or.inr ?_)
      exact dbscan_step_nonzero hcid0 hj

/-! ### The random members are never read or advanced -/

theorem expand_loop_congr {T : Type} [Inhabited T] {s₁ s₂ : density} (objects : List T)
    (dmetric : T → T → ℚ) (he : s₁.epsilon_ = s₂.epsilon_)
    (hm : s₁.min_points_ = s₂.min_points_)
    (hc : s₁.current_cluster_id_ = s₂.current_cluster_id_) :
    ∀ (fuel : Nat) (wl ids : List Nat),
      expand_loop s₁ objects dmetric fuel wl ids =
        expand_loop s₂ objects dmetric fuel wl ids := by
  intro fuel
  induction fuel with
  | zero => intro wl ids; rfl
  | succ fuel ih =>
    intro wl ids
    cases wl with
    | nil => rfl
    | cons p rest =>
      have herq : epsilon_range_query s₁ objects dmetric p =
          epsilon_range_query s₂ objects dmetric p :=
        epsilon_range_query_eps_only objects dmetric p he
      by_cases h : s₂.min_points_ ≤ (epsilon_range_query s₂ objects dmetric p).length
      · rw [expand_loop_cons_core fuel p rest ids (by rw [hm, herq]; exact h),
          expand_loop_cons_core fuel p rest ids h, herq, hc, ih]
      · rw [expand_loop_cons_noncore fuel p rest ids (by rw [hm, herq]; exact h),
          expand_loop_cons_noncore fuel p rest ids h, ih]

theorem expand_cluster_rng_comm {T : Type} [Inhabited T] (s : density) (a b : Nat)
    (objects : List T) (dmetric : T → T → ℚ) (i : Nat) :
    expand_cluster { s with random_ := a, rng_ := b } objects dmetric i =
      ((expand_cluster s objects dmetric i).1,
        { (expand_cluster s objects dmetric i).2 with random_ := a, rng_ := b }) := by
  have herq : epsilon_range_query { s with random_ := a, rng_ := b } objects dmetric i =
      epsilon_range_query s objects dmetric i :=
    epsilon_range_query_eps_only objects dmetric i rfl
  by_cases h : (epsilon_range_query s objects dmetric i).length < s.min_points_
  · have h' : (epsilon_range_query { s with random_ := a, rng_ := b } objects dmetric i).length <
        ({ s with random_ := a, rng_ := b } : density).min_points_ := by
      rw [herq]; exact h
    rw [expand_cluster_noise h', expand_cluster_noise h]
  · have h' : ¬ (epsilon_range_query { s with random_ := a, rng_ := b } objects dmetric i).length <
        ({ s with random_ := a, rng_ := b } : density).min_points_ := by
      rw [herq]; exact h
    have hfst : (expand_cluster { s with random_ := a, rng_ := b } objects dmetric i).1 = true :=
      expand_cluster_core_fst h'
    have hids : (expand_cluster { s with random_ := a, rng_ := b } objects dmetric i).2.cluster_ids =
        (expand_cluster s objects dmetric i).2.cluster_ids := by
      rw [expand_cluster_core_ids h', expand_cluster_core_ids h, herq]
      exact @expand_loop_congr T _ { s with random_ := a, rng_ := b } s objects dmetric
        rfl rfl rfl _ _ _
    have hsnd : (expand_cluster { s with random_ := a, rng_ := b } objects dmetric i).2 =
        { (expand_cluster s objects dmetric i).2 with random_ := a, rng_ := b } := by
      rw [expand_cluster_state { s with random_ := a, rng_ := b } objects dmetric i,
        expand_cluster_state s objects dmetric i, hids]
    calc expand_cluster { s with random_ := a, rng_ := b } objects dmetric i
        = ((expand_cluster { s with random_ := a, rng_ := b } objects dmetric i).1,
            (expand_cluster { s with random_ := a, rng_ := b } objects dmetric i).2) := rfl
      _ = ((expand_cluster s objects dmetric i).1,
            { (expand_cluster s objects dmetric i).2 with random_ := a, rng_ := b }) := by
          rw [hfst, expand_cluster_core_fst h, hsnd]

theorem dbscan_step_rng_comm {T : Type} [Inhabited T] (objects : List T)
    (dmetric : T → T → ℚ) (s : density) (a b i : Nat) :
    dbscan_step objects dmetric { s with random_ := a, rng_ := b } i =
      { dbscan_step objects dmetric s i with random_ := a, rng_ := b } := by
  simp only [dbscan_step]
  by_cases hg : s.cluster_ids.getD i 0 = UNCLASSIFIED
  · rw [if_pos hg,
      if_pos (show ({ s with random_ := a, rng_ := b } : density).cluster_ids.getD i 0 =
        UNCLASSIFIED from hg)]
    rw [expand_cluster_rng_comm]
    by_cases hr : (expand_cluster s objects dmetric i).1 = true
    · rw [hr]
      simp only [if_true]
    · rw [Bool.not_eq_true] at hr
      rw [hr]
      simp only [Bool.false_eq_true, if_false]
  · rw [if_neg hg,
      if_neg (show ¬ ({ s with random_ := a, rng_ := b } : density).cluster_ids.getD i 0 =
        UNCLASSIFIED from hg)]

theorem dbscan_foldl_rng_comm {T : Type} [Inhabited T] (objects : List T)
    (dmetric : T → T → ℚ) :
    ∀ (l : List Nat) (s : density) (a b : Nat),
      List.foldl (dbscan_step objects dmetric) { s with random_ := a, rng_ := b } l =
        { List.foldl (dbscan_step objects dmetric) s l with random_ := a, rng_ := b } := by
  intro l
  induction l with
  | nil => intro s a b; rfl
  | cons i tl ih =>
    intro s a b
    rw [List.foldl_cons, List.foldl_cons, dbscan_step_rng_comm, ih]

theorem dbscan_rng_comm {T : Type} [Inhabited T] (s : density) (a b : Nat)
    (objects : List T) (dmetric : T → T → ℚ) (epsilon : ℚ) (min_points : Nat) :
    dbscan { s with random_ := a, rng_ := b } objects dmetric epsilon min_points =
      { dbscan s objects dmetric epsilon min_points with random_ := a, rng_ := b } := by
  show List.foldl (dbscan_step objects dmetric)
      (dbscan_init { s with random_ := a, rng_ := b } objects epsilon min_points) _ = _
  have hinit : dbscan_init { s with random_ := a, rng_ := b } objects epsilon min_points =
      { dbscan_init s objects epsilon min_points with random_ := a, rng_ := b } := rfl
  rw [hinit, dbscan_foldl_rng_comm]
  rfl

/-! ### Branch equations for `dbscan_step` and the discovery trace -/

theorem dbscan_step_success {T : Type} [Inhabited T] {objects : List T}
    {dmetric : T → T → ℚ} {s : density} {i : Nat}
    (hg : s.cluster_ids.getD i 0 = UNCLASSIFIED)
    (hr : (expand_cluster s objects dmetric i).1 = true) :
    dbscan_step objects dmetric s i =
      { (expand_cluster s objects dmetric i).2 with
        medoid_ids := (expand_cluster s objects dmetric i).2.medoid_ids ++ [i]
        current_cluster_id_ := (expand_cluster s objects dmetric i).2.current_cluster_id_ + 1
        total_clusters_ := (expand_cluster s objects dmetric i).2.total_clusters_ + 1 } := by
  simp only [dbscan_step]
  rw [if_pos hg, hr]
  simp only [if_true]

theorem dbscan_step_fail {T : Type} [Inhabited T] {objects : List T}
    {dmetric : T → T → ℚ} {s : density} {i : Nat}
    (hg : s.cluster_ids.getD i 0 = UNCLASSIFIED)
    (hr : (expand_cluster s objects dmetric i).1 = false) :
    dbscan_step objects dmetric s i = (expand_cluster s objects dmetric i).2 := by
  simp only [dbscan_step]
  rw [if_pos hg, hr]
  simp only [Bool.false_eq_true, if_false]

theorem dbscan_trace_skip {T : Type} [Inhabited T] {objects : List T}
    {dmetric : T → T → ℚ} {s : density} {i : Nat} (rest : List Nat)
    (h : ¬ s.cluster_ids.getD i 0 = UNCLASSIFIED) :
    dbscan_trace objects dmetric s (i :: rest) = dbscan_trace objects dmetric s rest := by
  simp only [dbscan_trace]
  rw [if_neg h]

theorem dbscan_trace_success {T : Type} [Inhabited T] {objects : List T}
    {dmetric : T → T → ℚ} {s : density} {i : Nat} (rest : List Nat)
    (hg : s.cluster_ids.getD i 0 = UNCLASSIFIED)
    (hr : (expand_cluster s objects dmetric i).1 = true) :
    dbscan_trace objects dmetric s (i :: rest) =
      (i, s.current_cluster_id_) ::
        dbscan_trace objects dmetric (dbscan_step objects dmetric s i) rest := by
  simp only [dbscan_trace]
  rw [if_pos hg, hr]
  simp only [if_true]
  rw [dbscan_step_success hg hr]

theorem dbscan_trace_fail {T : Type} [Inhabited T] {objects : List T}
    {dmetric : T → T → ℚ} {s : density} {i : Nat} (rest : List Nat)
    (hg : s.cluster_ids.getD i 0 = UNCLASSIFIED)
    (hr : (expand_cluster s objects dmetric i).1 = false) :
    dbscan_trace objects dmetric s (i :: rest) =
      dbscan_trace objects dmetric (dbscan_step objects dmetric s i) rest := by
  simp only [dbscan_trace]
  rw [if_pos hg, hr]
  simp only [Bool.false_eq_true, if_false]
  rw [dbscan_step_fail hg hr]

theorem dbscan_trace_spec {T : Type} [Inhabited T] (objects : List T)
    (dmetric : T → T → ℚ) :
    ∀ (l : List Nat) (s : density),
      (List.foldl (dbscan_step objects dmetric) s l).medoid_ids =
        s.medoid_ids ++ (dbscan_trace objects dmetric s l).map Prod.fst ∧
      (List.foldl (dbscan_step objects dmetric) s l).total_clusters_ =
        s.total_clusters_ + (dbscan_trace objects dmetric s l).length ∧
      (List.foldl (dbscan_step objects dmetric) s l).current_cluster_id_ =
        s.current_cluster_id_ + (dbscan_trace objects dmetric s l).length ∧
      (dbscan_trace objects dmetric s l).map Prod.snd =
        List.range' s.current_cluster_id_ (dbscan_trace objects dmetric s l).length := by
  intro l
  induction l with
  | nil => intro s; simp [dbscan_trace]
  | cons i tl ih =>
    intro s
    by_cases hg : s.cluster_ids.getD i 0 = UNCLASSIFIED
    · by_cases hr : (expand_cluster s objects dmetric i).1 = true
      · rw [List.foldl_cons, dbscan_trace_success tl hg hr]
        rcases ih (dbscan_step objects dmetric s i) with ⟨h1, h2, h3, h4⟩
        have hfields : (dbscan_step objects dmetric s i).medoid_ids = s.medoid_ids ++ [i] ∧
            (dbscan_step objects dmetric s i).current_cluster_id_ = s.current_cluster_id_ + 1 ∧
            (dbscan_step objects dmetric s i).total_clusters_ = s.total_clusters_ + 1 := by
          rw [dbscan_step_success hg hr, expand_cluster_state]
          exact ⟨rfl, rfl, rfl⟩
        refine ⟨?_, ?_, ?_, ?_⟩
        · rw [h1, hfields.1, List.map_cons, List.append_assoc, List.singleton_append]
        · rw [h2, hfields.2.2, List.length_cons]
          omega
        · rw [h3, hfields.2.1, List.length_cons]
          omega
        · rw [List.map_cons, List.length_cons, List.range'_succ, h4, hfields.2.1]
      · have hr' : (expand_cluster s objects dmetric i).1 = false := by
          revert hr
          cases (expand_cluster s objects dmetric i).1 <;> simp
        rw [List.foldl_cons, dbscan_trace_fail tl hg hr']
        rcases ih (dbscan_step objects dmetric s i) with ⟨h1, h2, h3, h4⟩
        have hfields : (dbscan_step objects dmetric s i).medoid_ids = s.medoid_ids ∧
            (dbscan_step objects dmetric s i).current_cluster_id_ = s.current_cluster_id_ ∧
            (dbscan_step objects dmetric s i).total_clusters_ = s.total_clusters_ := by
          rw [dbscan_step_fail hg hr', expand_cluster_state]
          exact ⟨rfl, rfl, rfl⟩
        exact ⟨by rw [h1, hfields.1], by rw [h2, hfields.2.2], by rw [h3, hfields.2.1],
          by rw [h4, hfields.2.1]⟩
    · rw [List.foldl_cons, dbscan_trace_skip tl hg, dbscan_step_of_classified hg]
      exact ih s

/-! ### Helpers for the all-noise boundary and the second run -/

theorem getD_append_left {l l' : List Nat} {i : Nat} (h : i < l.length) :
    (l ++ l').getD i 0 = l.getD i 0 := by
  simp [List.getD_eq_getElem?_getD, List.getElem?_append_left h]

theorem getD_append_right_replicate {l : List Nat} {n i : Nat} (h : l.length ≤ i) :
    (l ++ List.replicate n 0).getD i 0 = 0 := by
  rcases Nat.lt_or_ge i (l ++ List.replicate n 0).length with hlt | hge
  · rw [List.getD_eq_getElem?_getD, List.getElem?_append_right h]
    rw [List.getElem?_replicate]
    split <;> rfl
  · exact getD_of_length_le hge

theorem getD_replicate {n x : Nat} : (List.replicate n 0).getD x 0 = 0 := by
  rcases Nat.lt_or_ge x n with h | h
  · simp [List.getD_eq_getElem?_getD, List.getElem?_replicate_of_lt h]
  · exact getD_of_length_le (by simpa using h)

theorem epsilon_range_query_length_le {T : Type} [Inhabited T] (s : density)
    (objects : List T) (dmetric : T → T → ℚ) (i : Nat) :
    (epsilon_range_query s objects dmetric i).length ≤ objects.length := by
  rw [epsilon_range_query]
  exact Nat.le_trans (List.length_filter_le _ _) (by rw [List.length_range])

theorem eq_singleton_of_mem_iff {l : List Nat} {p : Nat} (hs : l.Pairwise (· < ·))
    (h : ∀ x, x ∈ l ↔ x = p) : l = [p] := by
  cases l with
  | nil => exact absurd ((h p).2 rfl) (List.not_mem_nil p)
  | cons a t =>
    have ha : a = p := (h a).1 (List.mem_cons_self a t)
    subst ha
    have ht : t = [] := by
      cases t with
      | nil => rfl
      | cons b u =>
        have hb : b = a := (h b).1 (List.mem_cons_of_mem a (List.mem_cons_self b u))
        have hab : a < b := (List.pairwise_cons.1 hs).1 b (List.mem_cons_self b u)
        omega
    rw [ht]

theorem epsilon_range_query_singleton {T : Type} [Inhabited T] {s : density}
    {objects : List T} {dmetric : T → T → ℚ} {p : Nat} (hp : p < objects.length)
    (hd : ∀ j, j < objects.length → j ≠ p →
      ¬ dmetric (objects.getD p default) (objects.getD j default) < s.epsilon_) :
    epsilon_range_query s objects dmetric p = [p] := by
  refine eq_singleton_of_mem_iff (epsilon_range_query_pairwise s objects dmetric p) (fun x => ?_)
  rw [mem_epsilon_range_query]
  constructor
  · rintro ⟨hx, hor | hor⟩
    · exact hor
    · by_cases hxp : x = p
      · exact hxp
      · exact absurd hor (hd x hx hxp)
  · rintro rfl
    exact ⟨hp, Or.inl rfl⟩

theorem noise_scan {T : Type} [Inhabited T] (objects : List T) (dmetric : T → T → ℚ) :
    ∀ (l : List Nat) (s : density),
      2 ≤ s.min_points_ →
      objects.length ≤ s.cluster_ids.length →
      (∀ p, p < objects.length → epsilon_range_query s objects dmetric p = [p]) →
      (∀ j ∈ l, j < objects.length) → l.Nodup →
      (List.foldl (dbscan_step objects dmetric) s l).medoid_ids = s.medoid_ids ∧
      (List.foldl (dbscan_step objects dmetric) s l).total_clusters_ = s.total_clusters_ ∧
      (∀ j ∈ l, (List.foldl (dbscan_step objects dmetric) s l).cluster_ids.getD j 0 =
        if s.cluster_ids.getD j 0 = UNCLASSIFIED then NOISE else s.cluster_ids.getD j 0) ∧
      (∀ j, j ∉ l →
        (List.foldl (dbscan_step objects dmetric) s l).cluster_ids.getD j 0 =
          s.cluster_ids.getD j 0) := by
  intro l
  induction l with
  | nil =>
    intro s _ _ _ _ _
    exact ⟨rfl, rfl, fun j hj => absurd hj (List.not_mem_nil j), fun j _ => rfl⟩
  | cons i tl ih =>
    intro s hmp hlen hsingle hbounds hnd
    have hi_notin : i ∉ tl := (List.nodup_cons.1 hnd).1
    have hnd' : tl.Nodup := (List.nodup_cons.1 hnd).2
    have hin : i < objects.length := hbounds i (List.mem_cons_self i tl)
    have hilen : i < s.cluster_ids.length := Nat.lt_of_lt_of_le hin hlen
    have herq := hsingle i hin
    have hnlt : (epsilon_range_query s objects dmetric i).length < s.min_points_ := by
      rw [herq]
      simp only [List.length_singleton]
      omega
    by_cases hg : s.cluster_ids.getD i 0 = UNCLASSIFIED
    · have hfalse : (expand_cluster s objects dmetric i).1 = false :=
        (expand_cluster_false_iff s objects dmetric i).2 hnlt
      rw [List.foldl_cons, dbscan_step_fail hg hfalse, expand_cluster_noise hnlt]
      have hstep := ih { s with cluster_ids := s.cluster_ids.set i NOISE }
        hmp (by rw [List.length_set]; exact hlen)
        (fun p hp => by
          rw [epsilon_range_query_eps_only objects dmetric p
            (show ({ s with cluster_ids := s.cluster_ids.set i NOISE } : density).epsilon_ =
              s.epsilon_ from rfl)]
          exact hsingle p hp)
        (fun j hj => hbounds j (List.mem_cons_of_mem i hj)) hnd'
      rcases hstep with ⟨h1, h2, h3, h4⟩
      refine ⟨h1, h2, ?_, ?_⟩
      · intro j hj
        rcases List.mem_cons.1 hj with rfl | hj'
        · rw [h4 j hi_notin]
          show (s.cluster_ids.set j NOISE).getD j 0 = _
          rw [getD_set_self NOISE hilen, if_pos hg]
        · have hji : j ≠ i := fun h => hi_notin (h ▸ hj')
          rw [h3 j hj']
          show (if (s.cluster_ids.set i NOISE).getD j 0 = UNCLASSIFIED then NOISE
            else (s.cluster_ids.set i NOISE).getD j 0) = _
          rw [getD_set_ne NOISE (fun h => hji h.symm)]
      · intro j hj
        have hji : j ≠ i := fun h => hj (h ▸ List.mem_cons_self i tl)
        rw [h4 j (fun h => hj (List.mem_cons_of_mem i h))]
        show (s.cluster_ids.set i NOISE).getD j 0 = _
        rw [getD_set_ne NOISE (fun h => hji h.symm)]
    · rw [List.foldl_cons, dbscan_step_of_classified hg]
      have hstep := ih s hmp hlen hsingle
        (fun j hj => hbounds j (List.mem_cons_of_mem i hj)) hnd'
      rcases hstep with ⟨h1, h2, h3, h4⟩
      refine ⟨h1, h2, ?_, ?_⟩
      · intro j hj
        rcases List.mem_cons.1 hj with rfl | hj'
        · rw [h4 j hi_notin, if_neg hg]
        · exact h3 j hj'
      · intro j hj
        exact h4 j (fun h => hj (List.mem_cons_of_mem i h))

/-! ### Density-containment invariant -/

theorem process_neighbourhood_getD (cid : Nat) (nbhd ids : List Nat) (j : Nat)
    (nd : nbhd.Nodup) (hb : ∀ q ∈ nbhd, q < ids.length) :
    (process_neighbourhood cid nbhd ids).1.getD j 0 =
      if j ∈ nbhd ∧ ids.getD j 0 ≤ 1 then cid else ids.getD j 0 :=
  expand_fold_fst_getD nbhd cid ids [] j nd hb

theorem process_neighbourhood_snd (cid : Nat) (nbhd ids : List Nat) (nd : nbhd.Nodup) :
    (process_neighbourhood cid nbhd ids).2 =
      nbhd.filter (fun q => ids.getD q 0 == 0) := by
  have h := expand_fold_snd nbhd cid ids [] nd
  rw [List.nil_append] at h
  exact h

theorem process_neighbourhood_length (cid : Nat) (nbhd ids : List Nat) :
    (process_neighbourhood cid nbhd ids).1.length = ids.length :=
  expand_fold_fst_length nbhd cid (ids, [])

theorem process_neighbourhood_count (cid : Nat) (nbhd ids : List Nat)
    (hcid : cid ≠ 0) (hb : ∀ q ∈ nbhd, q < ids.length) :
    count0 (process_neighbourhood cid nbhd ids).1 +
        (process_neighbourhood cid nbhd ids).2.length ≤ count0 ids := by
  have h := expand_fold_count nbhd cid ids [] hcid hb
  simpa using h

theorem coreInv_congr {T : Type} [Inhabited T] {s₁ s₂ : density} (objects : List T)
    (dmetric : T → T → ℚ) (he : s₁.epsilon_ = s₂.epsilon_)
    (hm : s₁.min_points_ = s₂.min_points_) (ids : List Nat) :
    coreInv s₁ objects dmetric ids ↔ coreInv s₂ objects dmetric ids := by
  have herq : ∀ x, epsilon_range_query s₁ objects dmetric x =
      epsilon_range_query s₂ objects dmetric x :=
    fun x => epsilon_range_query_eps_only objects dmetric x he
  constructor
  · intro h x hcore hnz q hq
    exact h x (by rw [hm, herq x]; exact hcore) hnz q (by rw [herq x]; exact hq)
  · intro h x hcore hnz q hq
    exact h x (by rw [← hm, ← herq x]; exact hcore) hnz q (by rw [← herq x]; exact hq)

theorem expand_loop_inv {T : Type} [Inhabited T] (s : density) (objects : List T)
    (dmetric : T → T → ℚ) (hcid : FIRST_CLUSTER ≤ s.current_cluster_id_) :
    ∀ (fuel : Nat) (wl ids : List Nat),
      count0 ids + wl.length < fuel →
      objects.length ≤ ids.length →
      (∀ q ∈ wl, q < ids.length) →
      wlInv s objects dmetric wl ids →
      coreInv s objects dmetric (expand_loop s objects dmetric fuel wl ids) := by
  have hcid0 : s.current_cluster_id_ ≠ 0 := by
    simp only [FIRST_CLUSTER] at hcid; omega
  intro fuel
  induction fuel with
  | zero =>
    intro wl ids hmeasure
    exact absurd hmeasure (Nat.not_lt_zero _)
  | succ fuel ih =>
    intro wl ids hmeasure hlen hwl hinv
    cases wl with
    | nil =>
      rw [expand_loop_nil]
      intro x hcore hnz
      rcases hinv x hcore hnz with hx | hx
      · exact absurd hx (List.not_mem_nil x)
      · exact hx
    | cons p rest =>
      by_cases hcore : s.min_points_ ≤ (epsilon_range_query s objects dmetric p).length
      · rw [expand_loop_cons_core fuel p rest ids hcore]
        have nd : (epsilon_range_query s objects dmetric p).Nodup :=
          epsilon_range_query_nodup s objects dmetric p
        have hb : ∀ q ∈ epsilon_range_query s objects dmetric p, q < ids.length :=
          fun q hq => Nat.lt_of_lt_of_le (epsilon_range_query_mem_lt hq) hlen
        have hval := fun j => process_neighbourhood_getD s.current_cluster_id_
          (epsilon_range_query s objects dmetric p) ids j nd hb
        have hsnd := process_neighbourhood_snd s.current_cluster_id_
          (epsilon_range_query s objects dmetric p) ids nd
        have hcount := process_neighbourhood_count s.current_cluster_id_
          (epsilon_range_query s objects dmetric p) ids hcid0 hb
        have hlen1 := process_neighbourhood_length s.current_cluster_id_
          (epsilon_range_query s objects dmetric p) ids
        refine ih _ _ ?_ ?_ ?_ ?_
        · rw [List.length_append]
          rw [List.length_cons] at hmeasure
          omega
        · rw [hlen1]; exact hlen
        · intro q hq
          rw [hlen1]
          rcases List.mem_append.1 hq with hq' | hq'
          · exact hwl q (List.mem_cons_of_mem p hq')
          · rw [hsnd] at hq'
            exact Nat.lt_of_lt_of_le
              (epsilon_range_query_mem_lt (List.mem_of_mem_filter hq')) hlen
        · intro x hcorex hnzx
          by_cases hxp : x = p
          · subst hxp
            refine Or.inr (fun q hq => ?_)
            rw [hval q]
            by_cases h1 : ids.getD q 0 ≤ 1
            · rw [if_pos ⟨hq, h1⟩]; exact hcid
            · rw [if_neg (fun hc => h1 hc.2)]
              simp only [FIRST_CLUSTER]
              omega
          · by_cases hnz0 : ids.getD x 0 = 0
            · have hcond : x ∈ epsilon_range_query s objects dmetric p ∧ ids.getD x 0 ≤ 1 := by
                by_contra hc
                rw [hval x, if_neg hc] at hnzx
                exact hnzx hnz0
              refine Or.inl (List.mem_append_right rest ?_)
              rw [hsnd, List.mem_filter]
              exact ⟨hcond.1, by simpa using hnz0⟩
            · rcases hinv x hcorex hnz0 with hmem | hall
              · rcases List.mem_cons.1 hmem with h' | h'
                · exact absurd h' hxp
                · exact Or.inl (List.mem_append_left _ h')
              · refine Or.inr (fun q hq => ?_)
                have hq2 := hall q hq
                rw [hval q]
                by_cases h1 : ids.getD q 0 ≤ 1
                · exact absurd h1 (by simp only [FIRST_CLUSTER] at hq2; omega)
                · rw [if_neg (fun hc => h1 hc.2)]
                  exact hq2
      · rw [expand_loop_cons_noncore fuel p rest ids hcore]
        refine ih _ _ ?_ hlen (fun q hq => hwl q (List.mem_cons_of_mem p hq)) ?_
        · rw [List.length_cons] at hmeasure
          omega
        · intro x hcorex hnzx
          rcases hinv x hcorex hnzx with hmem | hall
          · rcases List.mem_cons.1 hmem with h' | h'
            · subst h'
              exact absurd hcorex hcore
            · exact Or.inl h'
          · exact Or.inr hall

theorem expand_cluster_coreInv {T : Type} [Inhabited T] {s : density} {objects : List T}
    {dmetric : T → T → ℚ} {i : Nat}
    (hcid : FIRST_CLUSTER ≤ s.current_cluster_id_)
    (hlen : objects.length ≤ s.cluster_ids.length)
    (hguard : s.cluster_ids.getD i 0 = UNCLASSIFIED)
    (hinv : coreInv s objects dmetric s.cluster_ids) :
    coreInv s objects dmetric (expand_cluster s objects dmetric i).2.cluster_ids := by
  by_cases h : (epsilon_range_query s objects dmetric i).length < s.min_points_
  · rw [expand_cluster_noise h]
    show coreInv s objects dmetric (s.cluster_ids.set i NOISE)
    intro x hcore hnz q hq
    by_cases hxi : x = i
    · subst hxi
      exact absurd hcore (by omega)
    · rw [getD_set_ne NOISE (fun hh => hxi hh.symm)] at hnz
      have hq2 := hinv x hcore hnz q hq
      have hqi : q ≠ i := by
        intro hh
        rw [hh, hguard] at hq2
        exact absurd hq2 (by decide)
      rw [getD_set_ne NOISE (fun hh => hqi hh.symm)]
      exact hq2
  · rw [expand_cluster_core_ids h]
    have hval : ∀ j, ((epsilon_range_query s objects dmetric i).foldl
        (fun ids j => ids.set j s.current_cluster_id_) s.cluster_ids).getD j 0 =
        if j ∈ epsilon_range_query s objects dmetric i ∧ j < s.cluster_ids.length then
          s.current_cluster_id_ else s.cluster_ids.getD j 0 :=
      fun j => foldl_set_getD (epsilon_range_query s objects dmetric i) s.cluster_ids
        s.current_cluster_id_ j
    refine expand_loop_inv s objects dmetric hcid _ _ _ ?_ ?_ ?_ ?_
    · have h1 : count0 ((epsilon_range_query s objects dmetric i).foldl
          (fun ids j => ids.set j s.current_cluster_id_) s.cluster_ids) ≤
          s.cluster_ids.length := by
        have := count0_le_length ((epsilon_range_query s objects dmetric i).foldl
          (fun ids j => ids.set j s.current_cluster_id_) s.cluster_ids)
        rwa [foldl_set_length] at this
      have h2 : ((epsilon_range_query s objects dmetric i).filter
          (fun j => !(j == i))).length ≤ objects.length :=
        Nat.le_trans (List.length_filter_le _ _)
          (epsilon_range_query_length_le s objects dmetric i)
      omega
    · rw [foldl_set_length]; exact hlen
    · intro q hq
      rw [foldl_set_length]
      exact Nat.lt_of_lt_of_le
        (epsilon_range_query_mem_lt (List.mem_of_mem_filter hq)) hlen
    · intro x hcorex hnzx
      by_cases hxin : x ∈ epsilon_range_query s objects dmetric i
      · by_cases hxi : x = i
        · subst hxi
          refine Or.inr (fun q hq => ?_)
          rw [hval q, if_pos ⟨hq, Nat.lt_of_lt_of_le (epsilon_range_query_mem_lt hq) hlen⟩]
          exact hcid
        · refine Or.inl ?_
          rw [List.mem_filter]
          refine ⟨hxin, ?_⟩
          simp [hxi]
      · rw [hval x, if_neg (fun hc => hxin hc.1)] at hnzx
        refine Or.inr (fun q hq => ?_)
        have hq2 := hinv x hcorex hnzx q hq
        rw [hval q]
        by_cases hc : q ∈ epsilon_range_query s objects dmetric i ∧ q < s.cluster_ids.length
        · rw [if_pos hc]; exact hcid
        · rw [if_neg hc]; exact hq2

theorem dbscan_step_coreInv {T : Type} [Inhabited T] {objects : List T}
    {dmetric : T → T → ℚ} {s₀ s : density} {i : Nat}
    (he : s.epsilon_ = s₀.epsilon_) (hm : s.min_points_ = s₀.min_points_)
    (hcid : FIRST_CLUSTER ≤ s.current_cluster_id_)
    (hlen : objects.length ≤ s.cluster_ids.length)
    (hinv : coreInv s₀ objects dmetric s.cluster_ids) :
    coreInv s₀ objects dmetric (dbscan_step objects dmetric s i).cluster_ids := by
  rw [dbscan_step_cluster_ids]
  split
  · rename_i hg
    rw [← coreInv_congr objects dmetric he hm]
    exact expand_cluster_coreInv hcid hlen hg
      ((coreInv_congr objects dmetric he hm s.cluster_ids).2 hinv)
  · exact hinv

theorem dbscan_foldl_coreInv {T : Type} [Inhabited T] (objects : List T)
    (dmetric : T → T → ℚ) :
    ∀ (l : List Nat) (s₀ s : density),
      s.epsilon_ = s₀.epsilon_ → s.min_points_ = s₀.min_points_ →
      FIRST_CLUSTER ≤ s.current_cluster_id_ →
      objects.length ≤ s.cluster_ids.length →
      coreInv s₀ objects dmetric s.cluster_ids →
      coreInv s₀ objects dmetric
        (List.foldl (dbscan_step objects dmetric) s l).cluster_ids := by
  intro l
  induction l with
  | nil => intro s₀ s _ _ _ _ hinv; exact hinv
  | cons i tl ih =>
    intro s₀ s he hm hcid hlen hinv
    rw [List.foldl_cons]
    refine ih s₀ (dbscan_step objects dmetric s i) ?_ ?_ ?_ ?_ ?_
    · rw [(dbscan_step_params objects dmetric s i).1]; exact he
    · rw [(dbscan_step_params objects dmetric s i).2.1]; exact hm
    · exact dbscan_step_cid_ge hcid
    · rw [dbscan_step_length]; exact hlen
    · exact dbscan_step_coreInv he hm hcid hlen hinv

theorem dbscan_def {T : Type} [Inhabited T] (s : density) (objects : List T)
    (dmetric : T → T → ℚ) (epsilon : ℚ) (min_points : Nat) :
    dbscan s objects dmetric epsilon min_points =
      (List.range objects.length).foldl (dbscan_step objects dmetric)
        (dbscan_init s objects epsilon min_points) := rfl

theorem dbscan_init_fresh_ids (r : Nat) {T : Type} (objects : List T) (epsilon : ℚ)
    (min_points : Nat) :
    (dbscan_init (density.fresh r) objects epsilon min_points).cluster_ids =
      List.replicate objects.length UNCLASSIFIED := by
  show ([] : List Nat) ++ List.replicate objects.length UNCLASSIFIED = _
  rw [List.nil_append]

/-! ### Claim theorems -/

/-- C3: for every input sequence, metric, epsilon and min_points, after
`dbscan` completes on a freshly constructed `density` instance, every one of
the n assignment entries holds either `NOISE` (1) or a cluster identifier
`k ≥ FIRST_CLUSTER = 2`; no entry remains `UNCLASSIFIED` (0). -/
theorem C3_totality {T : Type} [Inhabited T] (r : Nat) (objects : List T)
    (dmetric : T → T → ℚ) (epsilon : ℚ) (min_points : Nat) :
    (dbscan (density.fresh r) objects dmetric epsilon min_points).cluster_ids.length =
      objects.length ∧
    ∀ j, j < objects.length →
      (dbscan (density.fresh r) objects dmetric epsilon min_points).cluster_ids.getD j 0 =
          NOISE ∨
        FIRST_CLUSTER ≤
          (dbscan (density.fresh r) objects dmetric epsilon min_points).cluster_ids.getD j 0 := by
  constructor
  · rw [dbscan_def, dbscan_foldl_length, dbscan_init_fresh_ids, List.length_replicate]
  · intro j hj
    have h := dbscan_foldl_total objects dmetric (List.range objects.length)
      (dbscan_init (density.fresh r) objects epsilon min_points)
      (Nat.le_refl _)
      (by rw [dbscan_init_fresh_ids, List.length_replicate])
      (fun p hp => List.mem_range.1 hp)
      j (Or.inl (List.mem_range.2 hj))
    rw [dbscan_def]
    simp only [NOISE, FIRST_CLUSTER]
    omega

/-- Witness for C3 at a concrete input. -/
theorem C3_totality_witness :
    0 < exObjs.length ∧
    ((dbscan (density.fresh 0) exObjs exDm 1 4).cluster_ids.getD 0 0 = NOISE ∨
      FIRST_CLUSTER ≤ (dbscan (density.fresh 0) exObjs exDm 1 4).cluster_ids.getD 0 0) :=
  ⟨by decide, (C3_totality 0 exObjs exDm 1 4).2 0 (by decide)⟩

/-- C4: `epsilon_range_query(objects, metric, i)` returns exactly the indices
`j` with `j = i` (always included, independent of the metric) or
`distance(objects[i], objects[j]) < epsilon` (strict comparison), in ascending
index order, and the call has no side effects: it returns only the index list
and its result depends on the clusterer state only through `epsilon_`. -/
theorem C4_epsilon_range_query_contract {T : Type} [Inhabited T] (s : density)
    (objects : List T) (dmetric : T → T → ℚ) (i : Nat) :
    (∀ j, j ∈ epsilon_range_query s objects dmetric i ↔
        j < objects.length ∧ (j = i ∨
          dmetric (objects.getD i default) (objects.getD j default) < s.epsilon_)) ∧
    (epsilon_range_query s objects dmetric i).Pairwise (· < ·) ∧
    (∀ s₂ : density, s₂.epsilon_ = s.epsilon_ →
      epsilon_range_query s₂ objects dmetric i = epsilon_range_query s objects dmetric i) :=
  ⟨fun j => mem_epsilon_range_query s objects dmetric i j,
    epsilon_range_query_pairwise s objects dmetric i,
    fun s₂ h => epsilon_range_query_eps_only objects dmetric i h⟩

/-- Witness for C4 at a concrete input. -/
theorem C4_epsilon_range_query_witness :
    (density.fresh 1).epsilon_ = (density.fresh 0).epsilon_ ∧
    epsilon_range_query (density.fresh 1) exObjs exDm 0 =
      epsilon_range_query (density.fresh 0) exObjs exDm 0 :=
  ⟨rfl, (C4_epsilon_range_query_contract (density.fresh 0) exObjs exDm 0).2.2
    (density.fresh 1) rfl⟩

/-- C5: `expand_cluster` returns `false` iff the seed's epsilon-neighbourhood
(including the seed) has size strictly below `min_points_`, and in that case
its only effect is to set the seed's entry to `NOISE`, leaving every other
entry, the medoid list and the counters unchanged; otherwise it returns
`true`. -/
theorem C5_expand_cluster_noise_case {T : Type} [Inhabited T] (s : density)
    (objects : List T) (dmetric : T → T → ℚ) (seed : Nat) :
    ((expand_cluster s objects dmetric seed).1 = false ↔
      (epsilon_range_query s objects dmetric seed).length < s.min_points_) ∧
    ((epsilon_range_query s objects dmetric seed).length < s.min_points_ →
      expand_cluster s objects dmetric seed =
        (false, { s with cluster_ids := s.cluster_ids.set seed NOISE })) :=
  ⟨expand_cluster_false_iff s objects dmetric seed, fun h => expand_cluster_noise h⟩

/-- Witness for C5 at a concrete input. -/
theorem C5_expand_cluster_noise_witness :
    (epsilon_range_query (dbscan_init (density.fresh 0) ([0, 5, 5, 5] : List Int) 1 2)
        ([0, 5, 5, 5] : List Int) absDm 0).length <
      (dbscan_init (density.fresh 0) ([0, 5, 5, 5] : List Int) 1 2).min_points_ ∧
    (expand_cluster (dbscan_init (density.fresh 0) ([0, 5, 5, 5] : List Int) 1 2)
      ([0, 5, 5, 5] : List Int) absDm 0).1 = false :=
  ⟨by decide,
    ((C5_expand_cluster_noise_case (dbscan_init (density.fresh 0) ([0, 5, 5, 5] : List Int) 1 2)
      ([0, 5, 5, 5] : List Int) absDm 0).1).2 (by decide)⟩

/-- C1 (amended): over a `dbscan` run from a fresh instance, between the state
at any outer-scan iteration boundary and the state at ANY later outer-scan
iteration boundary of the same run (the run's end included, via an empty
remainder `l₃`), each assignment entry follows `labelStep`: an `UNCLASSIFIED`
entry may become `NOISE` or a cluster identifier, a `NOISE` entry may only
become a cluster identifier, and an entry holding a cluster identifier is
never overwritten with `NOISE` or `UNCLASSIFIED` — but it CAN be overwritten
with a later cluster identifier (by the unconditional initial labeling,
density.h lines 133-144, of a later seed's expansion); the original claim
that a cluster identifier is terminal fails, see the counterexample. -/
theorem C1_label_transitions {T : Type} [Inhabited T] (r : Nat) (objects : List T)
    (dmetric : T → T → ℚ) (epsilon : ℚ) (min_points : Nat) (l₁ l₂ l₃ : List Nat)
    (hsplit : List.range objects.length = l₁ ++ l₂ ++ l₃) (j : Nat) :
    labelStep
      ((List.foldl (dbscan_step objects dmetric)
        (dbscan_init (density.fresh r) objects epsilon min_points) l₁).cluster_ids.getD j 0)
      ((List.foldl (dbscan_step objects dmetric)
        (dbscan_init (density.fresh r) objects epsilon min_points)
        (l₁ ++ l₂)).cluster_ids.getD j 0) := by
  rw [List.foldl_append]
  exact dbscan_foldl_labelStep objects dmetric l₂ _
    (dbscan_foldl_cid_ge objects dmetric l₁ _ (Nat.le_refl _)) j

/-- Witness for C1 (amended) at a concrete input: between the boundary after
outer iteration 0 (entry 8 holds cluster id 2) and the later boundary after
outer iteration 4 (entry 8 holds cluster id 3) of the same 9-point run. -/
theorem C1_label_transitions_witness :
    List.range exObjs.length = [0] ++ [1, 2, 3, 4] ++ [5, 6, 7, 8] ∧
    labelStep
      ((List.foldl (dbscan_step exObjs exDm)
        (dbscan_init (density.fresh 0) exObjs 1 4) [0]).cluster_ids.getD 8 0)
      ((List.foldl (dbscan_step exObjs exDm)
        (dbscan_init (density.fresh 0) exObjs 1 4)
        ([0] ++ [1, 2, 3, 4])).cluster_ids.getD 8 0) :=
  ⟨by decide, C1_label_transitions 0 exObjs exDm 1 4 [0] [1, 2, 3, 4] [5, 6, 7, 8] (by decide) 8⟩

/-- C1 counterexample: in the 9-point two-cluster run, after the first outer
iteration entry 8 holds cluster id 2 = `FIRST_CLUSTER`; continuing the very
same run (the remaining outer iterations) overwrites it with cluster id 3, so
a cluster identifier is not terminal. -/
theorem C1_counterexample :
    (List.foldl (dbscan_step exObjs exDm)
      (dbscan_init (density.fresh 0) exObjs 1 4) [0]).cluster_ids.getD 8 0 = 2 ∧
    FIRST_CLUSTER ≤ 2 ∧
    dbscan (density.fresh 0) exObjs exDm 1 4 =
      List.foldl (dbscan_step exObjs exDm)
        (List.foldl (dbscan_step exObjs exDm)
          (dbscan_init (density.fresh 0) exObjs 1 4) [0]) [1, 2, 3, 4, 5, 6, 7, 8] ∧
    (dbscan (density.fresh 0) exObjs exDm 1 4).cluster_ids.getD 8 0 = 3 ∧
    (3 : Nat) ≠ 2 :=
  ⟨by decide, by decide, by decide, by decide, by decide⟩

/-- C6: in one iteration of the worklist loop on point `p`: if `p`'s
epsilon-neighbourhood has at least `min_points_` members, then every
`UNCLASSIFIED` point of the neighbourhood is appended to the worklist and
labeled with the current cluster id, every `NOISE` point is relabeled with the
current cluster id but not appended, every point already holding a cluster
identifier is left unmodified by this inner loop, and points outside the
neighbourhood are untouched; if the neighbourhood is smaller than
`min_points_`, the iteration changes no assignment entries. -/
theorem C6_worklist_step {T : Type} [Inhabited T] (s : density) (objects : List T)
    (dmetric : T → T → ℚ) (p : Nat) (rest ids : List Nat) (fuel : Nat)
    (hlen : objects.length ≤ ids.length) :
    (s.min_points_ ≤ (epsilon_range_query s objects dmetric p).length →
      (expand_loop s objects dmetric (fuel + 1) (p :: rest) ids =
        expand_loop s objects dmetric fuel
          (rest ++ (process_neighbourhood s.current_cluster_id_
            (epsilon_range_query s objects dmetric p) ids).2)
          (process_neighbourhood s.current_cluster_id_
            (epsilon_range_query s objects dmetric p) ids).1) ∧
      (∀ q ∈ epsilon_range_query s objects dmetric p,
        (ids.getD q 0 = UNCLASSIFIED →
          q ∈ (process_neighbourhood s.current_cluster_id_
              (epsilon_range_query s objects dmetric p) ids).2 ∧
            (process_neighbourhood s.current_cluster_id_
              (epsilon_range_query s objects dmetric p) ids).1.getD q 0 =
              s.current_cluster_id_) ∧
        (ids.getD q 0 = NOISE →
          q ∉ (process_neighbourhood s.current_cluster_id_
              (epsilon_range_query s objects dmetric p) ids).2 ∧
            (process_neighbourhood s.current_cluster_id_
              (epsilon_range_query s objects dmetric p) ids).1.getD q 0 =
              s.current_cluster_id_) ∧
        (FIRST_CLUSTER ≤ ids.getD q 0 →
          (process_neighbourhood s.current_cluster_id_
            (epsilon_range_query s objects dmetric p) ids).1.getD q 0 = ids.getD q 0)) ∧
      (∀ j, j ∉ epsilon_range_query s objects dmetric p →
        (process_neighbourhood s.current_cluster_id_
          (epsilon_range_query s objects dmetric p) ids).1.getD j 0 = ids.getD j 0)) ∧
    (¬ s.min_points_ ≤ (epsilon_range_query s objects dmetric p).length →
      expand_loop s objects dmetric (fuel + 1) (p :: rest) ids =
        expand_loop s objects dmetric fuel rest ids) := by
  have nd : (epsilon_range_query s objects dmetric p).Nodup :=
    epsilon_range_query_nodup s objects dmetric p
  have hb : ∀ q ∈ epsilon_range_query s objects dmetric p, q < ids.length :=
    fun q hq => Nat.lt_of_lt_of_le (epsilon_range_query_mem_lt hq) hlen
  have hval := fun j => process_neighbourhood_getD s.current_cluster_id_
    (epsilon_range_query s objects dmetric p) ids j nd hb
  have hsnd := process_neighbourhood_snd s.current_cluster_id_
    (epsilon_range_query s objects dmetric p) ids nd
  refine ⟨fun hcore => ⟨expand_loop_cons_core fuel p rest ids hcore, ?_, ?_⟩,
    fun h => expand_loop_cons_noncore fuel p rest ids h⟩
  · intro q hq
    refine ⟨fun h0 => ⟨?_, ?_⟩, fun h1 => ⟨?_, ?_⟩, fun h2 => ?_⟩
    · rw [hsnd, List.mem_filter]
      refine ⟨hq, ?_⟩
      simp only [UNCLASSIFIED] at h0
      simpa using h0
    · rw [hval q, if_pos ⟨hq, by simp only [UNCLASSIFIED] at h0; omega⟩]
    · have h1' : ¬ ((ids.getD q 0 == 0) = true) := by
        simp only [beq_iff_eq]
        simp only [NOISE] at h1
        omega
      rw [hsnd, List.mem_filter]
      exact fun hc => h1' hc.2
    · rw [hval q, if_pos ⟨hq, by simp only [NOISE] at h1; omega⟩]
    · rw [hval q,
        if_neg (fun hc => absurd hc.2 (by simp only [FIRST_CLUSTER] at h2; omega))]
  · intro j hj
    rw [hval j, if_neg (fun hc => hj hc.1)]

/-- Witness for C6 at a concrete input. -/
theorem C6_worklist_step_witness :
    exObjs.length ≤ (dbscan_init (density.fresh 0) exObjs 1 4).cluster_ids.length ∧
    (dbscan_init (density.fresh 0) exObjs 1 4).min_points_ ≤
      (epsilon_range_query (dbscan_init (density.fresh 0) exObjs 1 4) exObjs exDm 3).length ∧
    8 ∈ epsilon_range_query (dbscan_init (density.fresh 0) exObjs 1 4) exObjs exDm 3 ∧
    (dbscan_init (density.fresh 0) exObjs 1 4).cluster_ids.getD 8 0 = UNCLASSIFIED ∧
    (8 ∈ (process_neighbourhood (dbscan_init (density.fresh 0) exObjs 1 4).current_cluster_id_
        (epsilon_range_query (dbscan_init (density.fresh 0) exObjs 1 4) exObjs exDm 3)
        (dbscan_init (density.fresh 0) exObjs 1 4).cluster_ids).2 ∧
      (process_neighbourhood (dbscan_init (density.fresh 0) exObjs 1 4).current_cluster_id_
        (epsilon_range_query (dbscan_init (density.fresh 0) exObjs 1 4) exObjs exDm 3)
        (dbscan_init (density.fresh 0) exObjs 1 4).cluster_ids).1.getD 8 0 =
        (dbscan_init (density.fresh 0) exObjs 1 4).current_cluster_id_) :=
  ⟨by decide, by decide, by decide, by decide,
    (((C6_worklist_step (dbscan_init (density.fresh 0) exObjs 1 4) exObjs exDm 3 []
        (dbscan_init (density.fresh 0) exObjs 1 4).cluster_ids 0
        (by decide)).1 (by decide)).2.1 8 (by decide)).1 (by decide)⟩

theorem dbscan_foldl_all_classified {T : Type} [Inhabited T] (objects : List T)
    (dmetric : T → T → ℚ) :
    ∀ (l : List Nat) (s : density),
      (∀ i ∈ l, s.cluster_ids.getD i 0 ≠ UNCLASSIFIED) →
      List.foldl (dbscan_step objects dmetric) s l = s := by
  intro l
  induction l with
  | nil => intro s _; rfl
  | cons i tl ih =>
    intro s h
    rw [List.foldl_cons, dbscan_step_of_classified (h i (List.mem_cons_self i tl))]
    exact ih s (fun p hp => h p (List.mem_cons_of_mem i hp))

/-- C9: `dbscan` is deterministic and the declared random members are never
read or advanced: the outputs of `dbscan`, `expand_cluster` and
`epsilon_range_query` do not depend on `random_` / `rng_` (two runs on
identically constructed instances that differ only in those members produce
identical assignment arrays, medoid lists and counters), and `dbscan` leaves
both members exactly as constructed. -/
theorem C9_determinism_no_rng {T : Type} [Inhabited T] (s : density) (a b : Nat)
    (objects : List T) (dmetric : T → T → ℚ) (epsilon : ℚ) (min_points : Nat) (i : Nat) :
    dbscan { s with random_ := a, rng_ := b } objects dmetric epsilon min_points =
      { dbscan s objects dmetric epsilon min_points with random_ := a, rng_ := b } ∧
    expand_cluster { s with random_ := a, rng_ := b } objects dmetric i =
      ((expand_cluster s objects dmetric i).1,
        { (expand_cluster s objects dmetric i).2 with random_ := a, rng_ := b }) ∧
    epsilon_range_query { s with random_ := a, rng_ := b } objects dmetric i =
      epsilon_range_query s objects dmetric i ∧
    (dbscan s objects dmetric epsilon min_points).random_ = s.random_ ∧
    (dbscan s objects dmetric epsilon min_points).rng_ = s.rng_ :=
  ⟨dbscan_rng_comm s a b objects dmetric epsilon min_points,
    expand_cluster_rng_comm s a b objects dmetric i,
    epsilon_range_query_eps_only objects dmetric i rfl,
    by rw [dbscan_def]
       exact (dbscan_foldl_params objects dmetric (List.range objects.length) _).2.2.1,
    by rw [dbscan_def]
       exact (dbscan_foldl_params objects dmetric (List.range objects.length) _).2.2.2⟩

/-- C10: `dbscan` appends n fresh `UNCLASSIFIED` entries instead of resetting,
so a second identical call on the same instance leaves the first run's n
labels, the medoid list and the cluster count unchanged, and leaves the
assignment array at length 2n with the n new entries permanently
`UNCLASSIFIED`. -/
theorem C10_second_run {T : Type} [Inhabited T] (r : Nat) (objects : List T)
    (dmetric : T → T → ℚ) (epsilon : ℚ) (min_points : Nat) :
    (dbscan (density.fresh r) objects dmetric epsilon min_points).cluster_ids.length =
      objects.length ∧
    dbscan (dbscan (density.fresh r) objects dmetric epsilon min_points) objects dmetric
        epsilon min_points =
      { dbscan (density.fresh r) objects dmetric epsilon min_points with
        cluster_ids :=
          (dbscan (density.fresh r) objects dmetric epsilon min_points).cluster_ids ++
            List.replicate objects.length UNCLASSIFIED } ∧
    (dbscan (dbscan (density.fresh r) objects dmetric epsilon min_points) objects dmetric
        epsilon min_points).cluster_ids.length = 2 * objects.length ∧
    (dbscan (dbscan (density.fresh r) objects dmetric epsilon min_points) objects dmetric
        epsilon min_points).medoid_ids =
      (dbscan (density.fresh r) objects dmetric epsilon min_points).medoid_ids ∧
    (dbscan (dbscan (density.fresh r) objects dmetric epsilon min_points) objects dmetric
        epsilon min_points).total_clusters_ =
      (dbscan (density.fresh r) objects dmetric epsilon min_points).total_clusters_ ∧
    ∀ j, objects.length ≤ j →
      (dbscan (dbscan (density.fresh r) objects dmetric epsilon min_points) objects dmetric
        epsilon min_points).cluster_ids.getD j 0 = UNCLASSIFIED := by
  have hlen1 : (dbscan (density.fresh r) objects dmetric epsilon min_points).cluster_ids.length =
      objects.length := by
    rw [dbscan_def, dbscan_foldl_length, dbscan_init_fresh_ids, List.length_replicate]
  have he : (dbscan (density.fresh r) objects dmetric epsilon min_points).epsilon_ = epsilon := by
    rw [dbscan_def]
    exact (dbscan_foldl_params objects dmetric (List.range objects.length) _).1
  have hm : (dbscan (density.fresh r) objects dmetric epsilon min_points).min_points_ =
      min_points := by
    rw [dbscan_def]
    exact (dbscan_foldl_params objects dmetric (List.range objects.length) _).2.1
  have hinit2 : dbscan_init (dbscan (density.fresh r) objects dmetric epsilon min_points)
      objects epsilon min_points =
      { dbscan (density.fresh r) objects dmetric epsilon min_points with
        cluster_ids :=
          (dbscan (density.fresh r) objects dmetric epsilon min_points).cluster_ids ++
            List.replicate objects.length UNCLASSIFIED } := by
    refine density.ext rfl rfl rfl rfl ?_ ?_ rfl rfl
    · exact he.symm
    · exact hm.symm
  have htotal : ∀ j, j < objects.length →
      (dbscan (density.fresh r) objects dmetric epsilon min_points).cluster_ids.getD j 0 ≠ 0 := by
    intro j hj
    rw [dbscan_def]
    exact dbscan_foldl_total objects dmetric (List.range objects.length)
      (dbscan_init (density.fresh r) objects epsilon min_points)
      (Nat.le_refl _)
      (by rw [dbscan_init_fresh_ids, List.length_replicate])
      (fun p hp => List.mem_range.1 hp)
      j (Or.inl (List.mem_range.2 hj))
  have hmain : dbscan (dbscan (density.fresh r) objects dmetric epsilon min_points) objects
      dmetric epsilon min_points =
      { dbscan (density.fresh r) objects dmetric epsilon min_points with
        cluster_ids :=
          (dbscan (density.fresh r) objects dmetric epsilon min_points).cluster_ids ++
            List.replicate objects.length UNCLASSIFIED } := by
    rw [dbscan_def, hinit2]
    refine dbscan_foldl_all_classified objects dmetric (List.range objects.length) _ ?_
    intro i hi
    show ((dbscan (density.fresh r) objects dmetric epsilon min_points).cluster_ids ++
      List.replicate objects.length UNCLASSIFIED).getD i 0 ≠ UNCLASSIFIED
    rw [getD_append_left (by rw [hlen1]; exact List.mem_range.1 hi)]
    exact htotal i (List.mem_range.1 hi)
  refine ⟨hlen1, hmain, ?_, ?_, ?_, ?_⟩
  · rw [hmain]
    show ((dbscan (density.fresh r) objects dmetric epsilon min_points).cluster_ids ++
      List.replicate objects.length UNCLASSIFIED).length = _
    rw [List.length_append, List.length_replicate, hlen1]
    omega
  · rw [hmain]
  · rw [hmain]
  · intro j hj
    rw [hmain]
    show ((dbscan (density.fresh r) objects dmetric epsilon min_points).cluster_ids ++
      List.replicate objects.length UNCLASSIFIED).getD j 0 = UNCLASSIFIED
    exact getD_append_right_replicate (by rw [hlen1]; exact hj)

/-- Witness for C10 at a concrete input. -/
theorem C10_second_run_witness :
    exObjs.length ≤ 10 ∧
    (dbscan (dbscan (density.fresh 0) exObjs exDm 1 4) exObjs exDm 1 4).cluster_ids.getD 10 0 =
      UNCLASSIFIED :=
  ⟨by decide, (C10_second_run 0 exObjs exDm 1 4).2.2.2.2.2 10 (by decide)⟩

/-- C8 (amended): if every pairwise distance between distinct objects is at
least epsilon, then a `dbscan` run on a fresh instance with `min_points ≥ 2`
labels every entry `NOISE` and discovers zero clusters.  (The claim's "with
min_points any positive integer" fails at `min_points = 1`, where every point
becomes a singleton cluster instead of noise; see the counterexample.) -/
theorem C8_all_noise {T : Type} [Inhabited T] (r : Nat) (objects : List T)
    (dmetric : T → T → ℚ) (epsilon : ℚ) (min_points : Nat)
    (hm : 2 ≤ min_points)
    (hd : ∀ i j, i < objects.length → j < objects.length → i ≠ j →
      epsilon ≤ dmetric (objects.getD i default) (objects.getD j default)) :
    (∀ j, j < objects.length →
      (dbscan (density.fresh r) objects dmetric epsilon min_points).cluster_ids.getD j 0 =
        NOISE) ∧
    (dbscan (density.fresh r) objects dmetric epsilon min_points).total_clusters_ = 0 ∧
    (dbscan (density.fresh r) objects dmetric epsilon min_points).medoid_ids = [] := by
  have hsingle : ∀ p, p < objects.length →
      epsilon_range_query (dbscan_init (density.fresh r) objects epsilon min_points)
        objects dmetric p = [p] := by
    intro p hp
    refine epsilon_range_query_singleton hp ?_
    intro j hj hne
    exact not_lt.2 (hd p j hp hj (fun h => hne h.symm))
  have hscan := noise_scan objects dmetric (List.range objects.length)
    (dbscan_init (density.fresh r) objects epsilon min_points)
    hm
    (by rw [dbscan_init_fresh_ids, List.length_replicate])
    hsingle
    (fun j hj => List.mem_range.1 hj)
    (List.nodup_range _)
  rcases hscan with ⟨h1, h2, h3, _⟩
  refine ⟨?_, ?_, ?_⟩
  · intro j hj
    rw [dbscan_def, h3 j (List.mem_range.2 hj),
      if_pos (show (dbscan_init (density.fresh r) objects epsilon
        min_points).cluster_ids.getD j 0 = UNCLASSIFIED by
          rw [dbscan_init_fresh_ids]; exact getD_replicate)]
  · rw [dbscan_def, h2]
    rfl
  · rw [dbscan_def, h1]
    rfl

/-- Witness for C8 (amended) at a concrete input. -/
theorem C8_all_noise_witness :
    (2 : Nat) ≤ 2 ∧
    (∀ i j : Nat, i < ([0] : List Int).length → j < ([0] : List Int).length → i ≠ j →
      (1 : ℚ) ≤ absDm (([0] : List Int).getD i default) (([0] : List Int).getD j default)) ∧
    (dbscan (density.fresh 0) ([0] : List Int) absDm 1 2).cluster_ids.getD 0 0 = NOISE :=
  ⟨Nat.le_refl 2,
    fun i j hi hj hne => absurd (by simp only [List.length_singleton] at hi hj; omega : i = j) hne,
    (C8_all_noise 0 ([0] : List Int) absDm 1 2 (Nat.le_refl 2)
      (fun i j hi hj hne => absurd (by simp only [List.length_singleton] at hi hj; omega : i = j) hne)).1 0 (by decide)⟩

/-- C8 counterexample: a single point with `min_points = 1` (a positive
integer, as the claim allows) and no pair at distance below epsilon yields one
singleton cluster and no noise — not the all-`NOISE`, zero-cluster result the
claim asserts. -/
theorem C8_counterexample :
    (∀ i j : Nat, i < ([0] : List Int).length → j < ([0] : List Int).length → i ≠ j →
      (1 : ℚ) ≤ absDm (([0] : List Int).getD i default) (([0] : List Int).getD j default)) ∧
    0 < 1 ∧
    (dbscan (density.fresh 0) ([0] : List Int) absDm 1 1).total_clusters_ = 1 ∧
    (dbscan (density.fresh 0) ([0] : List Int) absDm 1 1).cluster_ids.getD 0 0 =
      FIRST_CLUSTER :=
  ⟨fun i j hi hj hne => absurd (by simp only [List.length_singleton] at hi hj; omega : i = j) hne, by decide, by decide, by decide⟩

/-- C7: after a fresh run, the medoid list is exactly the sequence of seeds of
the successful expansions in scan order (the discovery trace), the k-th of
which was expanded with cluster id `FIRST_CLUSTER + k`; the number of medoids
equals `total_clusters_` and ids are assigned consecutively from
`FIRST_CLUSTER`. -/
theorem C7_medoid_numbering {T : Type} [Inhabited T] (r : Nat) (objects : List T)
    (dmetric : T → T → ℚ) (epsilon : ℚ) (min_points : Nat) :
    (dbscan (density.fresh r) objects dmetric epsilon min_points).medoid_ids =
      (dbscan_trace objects dmetric
        (dbscan_init (density.fresh r) objects epsilon min_points)
        (List.range objects.length)).map Prod.fst ∧
    (dbscan (density.fresh r) objects dmetric epsilon min_points).total_clusters_ =
      (dbscan_trace objects dmetric
        (dbscan_init (density.fresh r) objects epsilon min_points)
        (List.range objects.length)).length ∧
    (dbscan (density.fresh r) objects dmetric epsilon min_points).current_cluster_id_ =
      FIRST_CLUSTER +
        (dbscan_trace objects dmetric
          (dbscan_init (density.fresh r) objects epsilon min_points)
          (List.range objects.length)).length ∧
    ∀ k, k < (dbscan_trace objects dmetric
        (dbscan_init (density.fresh r) objects epsilon min_points)
        (List.range objects.length)).length →
      ((dbscan_trace objects dmetric
        (dbscan_init (density.fresh r) objects epsilon min_points)
        (List.range objects.length)).getD k (0, 0)).2 = FIRST_CLUSTER + k := by
  rcases dbscan_trace_spec objects dmetric (List.range objects.length)
    (dbscan_init (density.fresh r) objects epsilon min_points) with ⟨h1, h2, h3, h4⟩
  refine ⟨?_, ?_, ?_, ?_⟩
  · rw [dbscan_def, h1]
    show ([] : List Nat) ++ _ = _
    rw [List.nil_append]
  · rw [dbscan_def, h2]
    show 0 + _ = _
    rw [Nat.zero_add]
  · rw [dbscan_def, h3]
    rfl
  · intro k hk
    have h5 : (List.map Prod.snd (dbscan_trace objects dmetric
        (dbscan_init (density.fresh r) objects epsilon min_points)
        (List.range objects.length)))[k]? = some (FIRST_CLUSTER + k) := by
      rw [h4, List.getElem?_range' _ _ hk]
      show some (FIRST_CLUSTER + 1 * k) = _
      rw [Nat.one_mul]
    rw [List.getElem?_map] at h5
    rcases htr : (dbscan_trace objects dmetric
        (dbscan_init (density.fresh r) objects epsilon min_points)
        (List.range objects.length))[k]? with _ | v
    · rw [htr] at h5
      exact absurd h5 (by simp)
    · rw [htr] at h5
      rw [List.getD_eq_getElem?_getD, htr]
      simpa using h5

/-- Witness for C7 at a concrete input. -/
theorem C7_medoid_numbering_witness :
    0 < (dbscan_trace exObjs exDm (dbscan_init (density.fresh 0) exObjs 1 4)
      (List.range exObjs.length)).length ∧
    ((dbscan_trace exObjs exDm (dbscan_init (density.fresh 0) exObjs 1 4)
      (List.range exObjs.length)).getD 0 ((0 : Nat), (0 : Nat))).2 = FIRST_CLUSTER + 0 :=
  ⟨by decide, (C7_medoid_numbering 0 exObjs exDm 1 4).2.2.2 0 (by decide)⟩

/-- C2 (amended): after a completed fresh `dbscan` run, for every core point
`p` (its own epsilon-neighbourhood, under the strict `<` comparison and
including `p`, has at least `min_points` members), every point in that
neighbourhood ends holding a cluster identifier (`≥ FIRST_CLUSTER`) — but not
necessarily the same one as `p`: a border point shared with an
earlier-discovered cluster keeps or receives a different cluster id, so the
original "same final cluster label" claim fails (see the counterexample). -/
theorem C2_core_neighborhood_clustered {T : Type} [Inhabited T] (r : Nat)
    (objects : List T) (dmetric : T → T → ℚ) (epsilon : ℚ) (min_points : Nat) (p : Nat)
    (hp : p < objects.length)
    (hcore : min_points ≤ (epsilon_range_query
      (dbscan (density.fresh r) objects dmetric epsilon min_points) objects dmetric p).length) :
    ∀ q ∈ epsilon_range_query
        (dbscan (density.fresh r) objects dmetric epsilon min_points) objects dmetric p,
      FIRST_CLUSTER ≤
        (dbscan (density.fresh r) objects dmetric epsilon min_points).cluster_ids.getD q 0 := by
  have he : (dbscan (density.fresh r) objects dmetric epsilon min_points).epsilon_ =
      (dbscan_init (density.fresh r) objects epsilon min_points).epsilon_ := by
    rw [dbscan_def]
    exact (dbscan_foldl_params objects dmetric (List.range objects.length) _).1
  have herq : ∀ x, epsilon_range_query
      (dbscan (density.fresh r) objects dmetric epsilon min_points) objects dmetric x =
      epsilon_range_query (dbscan_init (density.fresh r) objects epsilon min_points)
        objects dmetric x :=
    fun x => epsilon_range_query_eps_only objects dmetric x he
  have hinv : coreInv (dbscan_init (density.fresh r) objects epsilon min_points) objects dmetric
      (dbscan (density.fresh r) objects dmetric epsilon min_points).cluster_ids := by
    rw [dbscan_def]
    refine dbscan_foldl_coreInv objects dmetric (List.range objects.length)
      (dbscan_init (density.fresh r) objects epsilon min_points)
      (dbscan_init (density.fresh r) objects epsilon min_points)
      rfl rfl (Nat.le_refl _) ?_ ?_
    · rw [dbscan_init_fresh_ids, List.length_replicate]
    · intro x hcorex hnz
      rw [dbscan_init_fresh_ids] at hnz
      exact absurd getD_replicate hnz
  have hnzp : (dbscan (density.fresh r) objects dmetric epsilon
      min_points).cluster_ids.getD p 0 ≠ 0 := by
    rw [dbscan_def]
    exact dbscan_foldl_total objects dmetric (List.range objects.length)
      (dbscan_init (density.fresh r) objects epsilon min_points)
      (Nat.le_refl _)
      (by rw [dbscan_init_fresh_ids, List.length_replicate])
      (fun x hx => List.mem_range.1 hx)
      p (Or.inl (List.mem_range.2 hp))
  intro q hq
  have hq' : q ∈ epsilon_range_query
      (dbscan_init (density.fresh r) objects epsilon min_points) objects dmetric p := by
    rw [← herq p]
    exact hq
  have hcore' : (dbscan_init (density.fresh r) objects epsilon min_points).min_points_ ≤
      (epsilon_range_query (dbscan_init (density.fresh r) objects epsilon min_points)
        objects dmetric p).length := by
    rw [← herq p]
    exact hcore
  exact hinv p hcore' hnzp q hq'

/-- Witness for C2 (amended) at a concrete input. -/
theorem C2_core_neighborhood_witness :
    3 < exObjs.length ∧
    4 ≤ (epsilon_range_query (dbscan (density.fresh 0) exObjs exDm 1 4) exObjs exDm 3).length ∧
    8 ∈ epsilon_range_query (dbscan (density.fresh 0) exObjs exDm 1 4) exObjs exDm 3 ∧
    FIRST_CLUSTER ≤ (dbscan (density.fresh 0) exObjs exDm 1 4).cluster_ids.getD 8 0 :=
  ⟨by decide, by decide, by decide,
    C2_core_neighborhood_clustered 0 exObjs exDm 1 4 3 (by decide) (by decide) 8 (by decide)⟩

/-- C2 counterexample: in the 9-point run, point 3 is a core point (its
neighbourhood has 5 ≥ 4 = min_points members, under the run's own parameters)
whose final label is 2, yet its neighbour 8 ends with label 3 — a point in a
core point's neighbourhood that does not share the core point's final cluster
label. -/
theorem C2_counterexample :
    4 ≤ (epsilon_range_query (dbscan (density.fresh 0) exObjs exDm 1 4) exObjs exDm 3).length ∧
    8 ∈ epsilon_range_query (dbscan (density.fresh 0) exObjs exDm 1 4) exObjs exDm 3 ∧
    (dbscan (density.fresh 0) exObjs exDm 1 4).cluster_ids.getD 3 0 = 2 ∧
    (dbscan (density.fresh 0) exObjs exDm 1 4).cluster_ids.getD 8 0 = 3 ∧
    (3 : Nat) ≠ 2 :=
  ⟨by decide, by decide, by decide, by decide, by decide⟩

end cluster
